import Mathlib

/-!
Shallow embedding of `robot/running/arguments/typeconverters.py` (Robot
Framework's declared-type coercion engine) and proofs about its documented
behaviour.  Python values are modelled by the inductive `Value`, Python
`ValueError` payloads by `PyErr` (`Option.none` models a bare
`raise ValueError`, i.e. empty `args`), converters by `Conv`, and the
`TypeConverter.convert` pipeline by `pyConvert`.  External collaborators
(`robot.utils` helpers, the locale vocabulary, `ast.literal_eval`, the custom
converter registry) are modelled at their interface, following the spec's
description of those interfaces.
-/

/-! ### ASCII string helpers (model of Python `str` methods used by the code) -/

/-- ASCII lower-casing of one character (model of `str.lower` per character). -/
def lowerChar (c : Char) : Char :=
  if 65 ≤ c.toNat ∧ c.toNat ≤ 90 then Char.ofNat (c.toNat + 32) else c

/-- ASCII upper-casing of one character (model of `str.upper` per character). -/
def upperChar (c : Char) : Char :=
  if 97 ≤ c.toNat ∧ c.toNat ≤ 122 then Char.ofNat (c.toNat - 32) else c

/-- ASCII letter test (the cased characters of the model). -/
def isAsciiAlpha (c : Char) : Bool :=
  (65 ≤ c.toNat && c.toNat ≤ 90) || (97 ≤ c.toNat && c.toNat ≤ 122)

/-- Model of Python `str.lower` (ASCII fragment). -/
def pyLower (s : String) : String :=
  ⟨s.data.map lowerChar⟩

/-- Model of Python `str.upper` (ASCII fragment). -/
def pyUpper (s : String) : String :=
  ⟨s.data.map upperChar⟩

/-- Helper for `pyTitle`: the boolean records whether the previous character
was cased (a letter). -/
def pyTitleAux : Bool → List Char → List Char
  | _, [] => []
  | prev, c :: cs =>
    if isAsciiAlpha c then
      (if prev then lowerChar c else upperChar c) :: pyTitleAux true cs
    else
      c :: pyTitleAux false cs

/-- Model of Python `str.title` (ASCII fragment): the first letter of every
word is upper-cased, the following letters lower-cased. -/
def pyTitle (s : String) : String :=
  ⟨pyTitleAux false s.data⟩

/-- Model of Python `str.islower`: at least one cased character and no cased
character is upper case (ASCII fragment). -/
def pyIsLower (s : String) : Bool :=
  s.data.any isAsciiAlpha && s.data.all fun c => !(65 ≤ c.toNat && c.toNat ≤ 90)

/-- Model of Python `str.capitalize`: first character upper-cased, the rest
lower-cased (ASCII fragment). -/
def pyCapitalize (s : String) : String :=
  match s.data with
  | [] => ""
  | c :: cs => ⟨upperChar c :: cs.map lowerChar⟩

/-- Modelled from the spec: `robot.utils.eq` with `ignore="_-"` (the module is
external to this file) compares strings case- and separator-insensitively,
treating `_` and `-` as ignorable. -/
def normName (s : String) : String :=
  ⟨(pyLower s).data.filter fun c => c ≠ '_' && c ≠ '-'⟩

/-- Modelled from the spec: the case/separator-insensitive string equality
used for enum-member and literal matching (`robot.utils.eq`, external). -/
def eqNorm (a b : String) : Bool :=
  normName a == normName b

/-- Code-point comparison of character lists (Python string `<=`). -/
def charListLe : List Char → List Char → Bool
  | [], _ => true
  | _ :: _, [] => false
  | a :: as', b :: bs' =>
    if a.toNat == b.toNat then charListLe as' bs'
    else decide (a.toNat < b.toNat)

/-- Python string `<=` by code points. -/
def strLe (a b : String) : Bool :=
  charListLe a.data b.data

/-- Insertion of a string into a sorted list (for the model of `sorted`). -/
def insertStr (x : String) : List String → List String
  | [] => [x]
  | y :: ys => if strLe x y then x :: y :: ys else y :: insertStr x ys

/-- Model of Python `sorted` on strings (insertion sort, lexicographic). -/
def sortStr : List String → List String
  | [] => []
  | x :: xs => insertStr x (sortStr xs)

/-- Insertion of an integer into a sorted list. -/
def insertInt (x : Int) : List Int → List Int
  | [] => [x]
  | y :: ys => if x ≤ y then x :: y :: ys else y :: insertInt x ys

/-- Model of Python `sorted` on integers. -/
def sortInt : List Int → List Int
  | [] => []
  | x :: xs => insertInt x (sortInt xs)

/-- Modelled from the spec: `robot.utils.seq2str` (external) renders a
sequence as `'a', 'b' and 'c'`; the quote and the last separator are
configurable (the union display name uses quote `""` and ` or `). -/
def seq2str (quote lastsep : String) : List String → String
  | [] => ""
  | [x] => quote ++ x ++ quote
  | [x, y] => quote ++ x ++ quote ++ lastsep ++ quote ++ y ++ quote
  | x :: rest => quote ++ x ++ quote ++ ", " ++ seq2str quote lastsep rest

/-- Modelled from the spec: `robot.utils.plural_or_not` (external): `"s"`
unless the count is one. -/
def pluralS (n : Nat) : String :=
  if n == 1 then "" else "s"

/-- The value of a Python `float`, carried exactly: the rational
`num / den` (`den` positive; every IEEE float is such a rational).  The
operations the converters perform on floats — `is_integer`, `int(...)`,
`==` — are exact on this representation. -/
structure PyFloat where
  num : Int
  den : Nat
deriving DecidableEq

/-- `10 ^ k` as a natural number. -/
def tenPow : Nat → Nat
  | 0 => 1
  | k + 1 => 10 * tenPow k

/-- Build a float value in lowest terms. -/
def mkFloat (n : Int) (d : Nat) : PyFloat :=
  let g := Nat.gcd n.natAbs d
  if g == 0 then ⟨0, 1⟩ else ⟨n / (g : Int), d / g⟩

/-! ### Python values

`Value` models the Python runtime values the converters operate on.  Floats
are carried as exact rationals (every IEEE float is one, and the only float
operations the code performs — `is_integer`, `int(...)`, equality — are exact
on them).  Dictionaries are modelled as association lists in insertion order;
sets keep their elements as a list (the converters only build and traverse
them).  `vEnum cls member val` models an enum member `cls.member` with an
integral `value` payload. -/

inductive Value where
  | vNone : Value
  | vBool : Bool → Value
  | vInt : Int → Value
  | vFloat : PyFloat → Value
  | vStr : String → Value
  | vList : List Value → Value
  | vTuple : List Value → Value
  | vSet : List Value → Value
  | vDict : List (Value × Value) → Value
  | vEnum : String → String → Int → Value

open Value

/-- The runtime type of a value, as compared by Python's `type(x) is type(y)`
(an enum member's type is its enum class). -/
inductive TypeTag where
  | noneTag | boolTag | intTag | floatTag | strTag
  | listTag | tupleTag | setTag | dictTag
  | enumTag : String → TypeTag
deriving DecidableEq

/-- `type(v)` of the model. -/
def typeTag : Value → TypeTag
  | vNone => .noneTag
  | vBool _ => .boolTag
  | vInt _ => .intTag
  | vFloat _ => .floatTag
  | vStr _ => .strTag
  | vList _ => .listTag
  | vTuple _ => .tupleTag
  | vSet _ => .setTag
  | vDict _ => .dictTag
  | vEnum cls _ _ => .enumTag cls

/-- Numeric view of a value, as numerator and positive denominator, for
Python's cross-type numeric `==` (`True == 1`, `1 == 1.0`). -/
def numView : Value → Option (Int × Nat)
  | vBool b => some (if b then 1 else 0, 1)
  | vInt n => some (n, 1)
  | vFloat f => some (f.num, f.den)
  | _ => Option.none

mutual

/-- Model of Python `==` on the value universe.  Numbers (`bool`, `int`,
`float`) compare by numeric value across types; sequences compare
element-wise within the same kind; sets and dicts are compared structurally
here (the embedded code only ever compares scalar and sequence values). -/
def pyEq : Value → Value → Bool
  | vStr a, vStr b => a == b
  | vNone, vNone => true
  | vEnum c m v, vEnum c' m' v' => c == c' && m == m' && v == v'
  | vList a, vList b => pyEqList a b
  | vTuple a, vTuple b => pyEqList a b
  | vSet a, vSet b => pyEqList a b
  | vDict a, vDict b => pyEqPairs a b
  | a, b =>
    match numView a, numView b with
    | some x, some y => x.1 * (y.2 : Int) == y.1 * (x.2 : Int)
    | _, _ => false

/-- Element-wise `==` on sequences. -/
def pyEqList : List Value → List Value → Bool
  | [], [] => true
  | a :: as', b :: bs' => pyEq a b && pyEqList as' bs'
  | _, _ => false

/-- Pair-wise `==` on association lists. -/
def pyEqPairs : List (Value × Value) → List (Value × Value) → Bool
  | [], [] => true
  | (k, v) :: ps, (k', v') :: qs => pyEq k k' && pyEq v v' && pyEqPairs ps qs
  | _, _ => false

end

/-- Is the value a Python `str`? -/
def isStrV : Value → Bool
  | vStr _ => true
  | _ => false

/-- Is the value a Python `bool`? -/
def isBoolV : Value → Bool
  | vBool _ => true
  | _ => false

/-- Is the value a Python `int` (which in Python includes `bool`)? -/
def isIntV : Value → Bool
  | vInt _ => true
  | vBool _ => true
  | _ => false

/-- Is the value a Python `float`? -/
def isFloatV : Value → Bool
  | vFloat _ => true
  | _ => false

/-- Is the value Python `None`? -/
def isNoneV : Value → Bool
  | vNone => true
  | _ => false

/-- Is the value a Python `list`? -/
def isListV : Value → Bool
  | vList _ => true
  | _ => false

/-- Is the value a Python `tuple`? -/
def isTupleV : Value → Bool
  | vTuple _ => true
  | _ => false

/-- Is the value a Python `set`? -/
def isSetV : Value → Bool
  | vSet _ => true
  | _ => false

/-- Is the value a Python `dict`? -/
def isDictV : Value → Bool
  | vDict _ => true
  | _ => false

/-- The Python classes appearing in `isinstance` checks of the code
(`value_types` tuples, `no_conversion_needed`), including the abstract bases
`collections.abc.Sequence`, `Mapping`, `Container` and `numbers.Real`. -/
inductive PyCls where
  | strCls | intCls | floatCls | boolCls | noneCls
  | listCls | tupleCls | setCls | dictCls
  | seqAbc | mapAbc | containerAbc | realAbc
  | enumOf : String → PyCls
deriving DecidableEq

/-- Model of Python `isinstance` on the value universe: `bool` is a subclass
of `int`; `str`, `list` and `tuple` are registered `Sequence`s; `dict` is a
`Mapping`; sequences, sets, dicts and strings are `Container`s; `bool`,
`int` and `float` are `Real`s. -/
def isinst (v : Value) (c : PyCls) : Bool :=
  match c with
  | .strCls => isStrV v
  | .intCls => isIntV v
  | .floatCls => isFloatV v
  | .boolCls => isBoolV v
  | .noneCls => isNoneV v
  | .listCls => isListV v
  | .tupleCls => isTupleV v
  | .setCls => isSetV v
  | .dictCls => isDictV v
  | .seqAbc => isStrV v || isListV v || isTupleV v
  | .mapAbc => isDictV v
  | .containerAbc => isStrV v || isListV v || isTupleV v || isSetV v || isDictV v
  | .realAbc => isBoolV v || isIntV v || isFloatV v
  | .enumOf cls => match v with
    | vEnum c _ _ => c == cls
    | _ => false

/-- `isinstance(v, tup)` for a tuple of classes. -/
def isinstAny (v : Value) (cs : List PyCls) : Bool :=
  cs.any (isinst v)

/-! ### Rendering values (models of Python `str`/`repr` and
`robot.utils.type_name` / `safe_str`, which the error formatter uses) -/

/-- Model of Python `repr`/`str` of a float.  A model float is an exact
rational; floats whose value has a finite decimal expansion (every actual
IEEE float) are printed with a decimal point, mirroring Python's shortest
faithful rendering for the simple values the tests use (`3.5`, `3.0`, …). -/
def floatRepr (f : PyFloat) : String :=
  let sign := if f.num < 0 then "-" else ""
  let a := f.num.natAbs
  let d := f.den
  match (List.range 31).find? fun k => (a * tenPow k) % d == 0 with
  | some 0 => sign ++ toString (a / d) ++ ".0"
  | some k =>
    let s := toString (a * tenPow k / d)
    let s := if s.length ≤ k then (⟨List.replicate (k + 1 - s.length) '0'⟩ : String) ++ s else s
    sign ++ ⟨s.data.take (s.data.length - k)⟩ ++ "." ++ ⟨s.data.drop (s.data.length - k)⟩
  | Option.none => sign ++ toString a ++ "/" ++ toString d

mutual

/-- Model of Python `repr` on the value universe (strings are shown in single
quotes without escaping, which is faithful for the values appearing here). -/
def pyRepr : Value → String
  | vNone => "None"
  | vBool b => if b then "True" else "False"
  | vInt n => toString n
  | vFloat q => floatRepr q
  | vStr s => "'" ++ s ++ "'"
  | vList xs => "[" ++ pyReprList xs ++ "]"
  | vTuple [x] => "(" ++ pyRepr x ++ ",)"
  | vTuple xs => "(" ++ pyReprList xs ++ ")"
  | vSet [] => "set()"
  | vSet xs => "\x7b" ++ pyReprList xs ++ "\x7d"
  | vDict xs => "\x7b" ++ pyReprPairs xs ++ "\x7d"
  | vEnum cls m v => "<" ++ cls ++ "." ++ m ++ ": " ++ toString v ++ ">"

/-- `repr` of sequence elements, comma separated. -/
def pyReprList : List Value → String
  | [] => ""
  | [x] => pyRepr x
  | x :: xs => pyRepr x ++ ", " ++ pyReprList xs

/-- `repr` of dict entries, comma separated. -/
def pyReprPairs : List (Value × Value) → String
  | [] => ""
  | [(k, v)] => pyRepr k ++ ": " ++ pyRepr v
  | (k, v) :: ps => pyRepr k ++ ": " ++ pyRepr v ++ ", " ++ pyReprPairs ps

end

/-- Model of Python `str` (and of `robot.utils.safe_str`, external, which the
code applies to the failing value): `str` of a string is itself, `str` of an
enum member is `Cls.MEMBER`, everything else renders as its `repr`. -/
def pyStr : Value → String
  | vStr s => s
  | vEnum cls m _ => cls ++ "." ++ m
  | v => pyRepr v

/-- Modelled from the spec: `robot.utils.type_name` (external) names the
runtime type of a value in a human-readable way (`<runtime-type>` in the
uniform error message). -/
def typeName : Value → String
  | vNone => "None"
  | vBool _ => "boolean"
  | vInt _ => "integer"
  | vFloat _ => "float"
  | vStr _ => "string"
  | vList _ => "list"
  | vTuple _ => "tuple"
  | vSet _ => "set"
  | vDict _ => "dictionary"
  | vEnum cls _ _ => cls

/-! ### Errors and the uniform error formatter -/

/-- Payload of a Python `ValueError`: `Option.none` models a bare
`raise ValueError` (empty `args`), `some m` models `ValueError(m)`.  `str` of
the former is `""` and its `args` tuple is falsy. -/
abbrev PyErr := Option String

/-- Conversion results: a converted value or a raised `ValueError`. -/
abbrev Res := Except PyErr Value

/-- The ` (<runtime-type>)` parenthetical of the uniform message, omitted for
string inputs (`TypeConverter._handle_error`, line 167). -/
def typSuffix (v : Value) : String :=
  if isStrV v then "" else " (" ++ typeName v ++ ")"

/-- The kind word as capitalized by `_handle_error` (line 169):
`kind.capitalize() if kind.islower() else kind`. -/
def capKind (kind : String) : String :=
  if pyIsLower kind then pyCapitalize kind else kind

/-- The message ending of `_handle_error` (line 170): `": <error>"` when an
inner error with non-empty `args` was caught, otherwise `"."`.  The outer
`Option` is the `error=None` default parameter; the inner is the payload. -/
def endingOf (error : Option PyErr) : String :=
  match error with
  | some (some m) => ": " ++ m
  | _ => "."

/-- Model of `TypeConverter._handle_error` (lines 166-176): build the uniform
"cannot be converted" `ValueError`.  `tn` is the converter's `type_name`. -/
def handleError (tn : String) (v : Value) (name : Option String) (kind : String)
    (error : Option PyErr) : PyErr :=
  let cannot := "cannot be converted to " ++ tn ++ endingOf error
  match name with
  | Option.none =>
    some (capKind kind ++ " '" ++ pyStr v ++ "'" ++ typSuffix v ++ " " ++ cannot)
  | some n =>
    some (capKind kind ++ " '" ++ n ++ "' got value '" ++ pyStr v ++ "'"
      ++ typSuffix v ++ " that " ++ cannot)

/-! ### The generic `convert` pipeline (`TypeConverter.convert`, lines 122-137)

Scalar converters are non-recursive, so their whole pipeline is captured by a
hook record mirroring the overridable methods of the Python base class. -/

/-- The overridable pieces of a scalar converter. -/
structure ScalarHooks where
  tn : String
  noConvNeeded : Value → Bool
  handlesValue : Value → Bool
  convertStr : String → Res
  nonStrConvert : Value → Res

/-- Model of `TypeConverter.convert`: short-circuit when no conversion is
needed, reject unsupported input kinds, dispatch text/non-text, and wrap any
raised `ValueError` through `_handle_error`. -/
def runPipeline (h : ScalarHooks) (v : Value) (name : Option String) (kind : String) : Res :=
  if h.noConvNeeded v then .ok v
  else if !h.handlesValue v then .error (handleError h.tn v name kind Option.none)
  else
    let inner := match v with
      | vStr s => h.convertStr s
      | w => h.nonStrConvert w
    match inner with
    | .ok w => .ok w
    | .error e => .error (handleError h.tn v name kind (some e))

/-! ### Integer conversion (`IntegerConverter`, lines 306-342) -/

/-- `TypeConverter._remove_number_separators` (lines 193-198): drop every
space and underscore. -/
def removeSeps (s : String) : String :=
  ⟨s.data.filter fun c => c ≠ ' ' && c ≠ '_'⟩

/-- Does the first list start with the second? -/
def startsWithCl : List Char → List Char → Bool
  | [], _ => true
  | _ :: _, [] => false
  | p :: ps, c :: cs => p == c && startsWithCl ps cs

/-- Fuelled worker for `pySplit` (leftmost, non-overlapping). -/
def pySplitAux (sep : List Char) : Nat → List Char → List Char → List String
  | 0, cs, acc => [⟨acc.reverse ++ cs⟩]
  | _ + 1, [], acc => [⟨acc.reverse⟩]
  | fuel + 1, c :: cs, acc =>
    if startsWithCl sep (c :: cs) then
      (⟨acc.reverse⟩ : String) :: pySplitAux sep fuel (List.drop sep.length (c :: cs)) []
    else pySplitAux sep fuel cs (c :: acc)

/-- Model of Python `str.split(sep)` for a non-empty separator. -/
def pySplit (s sep : String) : List String :=
  pySplitAux sep.data (s.data.length + 1) s.data []

/-- Python's `in` on strings: `pat` occurs as a substring (via `split`,
which agrees with Python `str.split` for a non-empty separator). -/
def strContains (s pat : String) : Bool :=
  (pySplit s pat).length ≥ 2

/-- The prefix loop of `IntegerConverter._get_base` (lines 337-341): if the
prefix occurs, split on it; accept exactly two parts whose head is an
optional sign; otherwise try the next prefix. -/
def getBaseLoop (v : String) : List (String × Nat) → String × Nat
  | [] => (v, 10)
  | (p, b) :: rest =>
    if strContains v p then
      let parts := pySplit v p
      let head := parts.headD ""
      if parts.length == 2 && (head == "" || head == "-" || head == "+") then
        (String.join parts, b)
      else getBaseLoop v rest
    else getBaseLoop v rest

/-- `IntegerConverter._get_base` (lines 335-342): lower-case, then detect the
`0x`/`0o`/`0b` prefixes selecting base 16/8/2, defaulting to base 10. -/
def getBase (s : String) : String × Nat :=
  getBaseLoop (pyLower s) [("0x", 16), ("0o", 8), ("0b", 2)]

/-- Digit value of a character, as Python `int(..., base)` reads it. -/
def digitVal (c : Char) : Option Nat :=
  if 48 ≤ c.toNat ∧ c.toNat ≤ 57 then some (c.toNat - 48)
  else if 97 ≤ c.toNat ∧ c.toNat ≤ 122 then some (c.toNat - 87)
  else if 65 ≤ c.toNat ∧ c.toNat ≤ 90 then some (c.toNat - 55)
  else Option.none

/-- Accumulate digits in the given base; any non-digit or out-of-base digit
fails. -/
def parseDigitsAux (base : Nat) (acc : Nat) : List Char → Option Nat
  | [] => some acc
  | c :: cs =>
    match digitVal c with
    | some d => if d < base then parseDigitsAux base (acc * base + d) cs else Option.none
    | Option.none => Option.none

/-- Model of Python `int(s, base)` on the separator-free strings produced by
`_get_base`: an optional sign followed by at least one digit of the base. -/
def parseIntBase (s : String) (base : Nat) : Option Int :=
  match s.data with
  | [] => Option.none
  | '-' :: cs =>
    if cs.isEmpty then Option.none
    else (parseDigitsAux base 0 cs).map fun n => -(n : Int)
  | '+' :: cs =>
    if cs.isEmpty then Option.none
    else (parseDigitsAux base 0 cs).map fun n => (n : Int)
  | cs => parseDigitsAux base 0 cs

/-- All characters are decimal digits. -/
def allDigits (cs : List Char) : Bool :=
  cs.all fun c => 48 ≤ c.toNat && c.toNat ≤ 57

/-- Numeric value of a decimal digit string. -/
def digitsToNat (cs : List Char) : Nat :=
  cs.foldl (fun acc c => acc * 10 + (c.toNat - 48)) 0

/-- Mantissa of a decimal literal: digits with one optional point, at least
one digit in total; returns the scaled integer value and the number of
fractional digits. -/
def parseMantissa (cs : List Char) : Option (Nat × Nat) :=
  match cs.splitOn '.' with
  | [intPart] =>
    if intPart.isEmpty || !allDigits intPart then Option.none
    else some (digitsToNat intPart, 0)
  | [intPart, fracPart] =>
    if (intPart.isEmpty && fracPart.isEmpty)
        || !allDigits intPart || !allDigits fracPart then Option.none
    else some (digitsToNat (intPart ++ fracPart), fracPart.length)
  | _ => Option.none

/-- Optional sign: returns the sign as `1`/`-1` and the rest. -/
def splitSign : List Char → Int × List Char
  | '-' :: cs => (-1, cs)
  | '+' :: cs => (1, cs)
  | cs => (1, cs)

/-- Exponent part of a decimal literal (after `e`): optional sign, digits. -/
def parseExp (cs : List Char) : Option Int :=
  let (sgn, ds) := splitSign cs
  if ds.isEmpty || !allDigits ds then Option.none
  else some (sgn * (digitsToNat ds : Int))

/-- The exact value `sgn * m * 10 ^ (e - f)` in lowest terms. -/
def floatOfParts (sgn : Int) (m : Nat) (f : Nat) (e : Int) : PyFloat :=
  if (f : Int) ≤ e then ⟨sgn * (m : Int) * (tenPow (e - (f : Int)).toNat : Int), 1⟩
  else mkFloat (sgn * (m : Int)) (tenPow ((f : Int) - e).toNat)

/-- Modelled from the spec: the "exact decimal fraction" reading of base-10
text (`decimal.Decimal(value).as_integer_ratio()`, external module).  The
result is the numerator/denominator pair (lowest terms) of a finite decimal
literal `[sign] digits [. digits] [e [sign] digits]`; special values
(`nan`, `inf`) yield nothing, which the caller treats like the exceptions
the Python code swallows there. -/
def decimalRatio (s : String) : Option (Int × Nat) :=
  let (sgn, cs) := splitSign s.data
  match cs.splitOn 'e' with
  | [mant] =>
    (parseMantissa mant).map fun p =>
      ((floatOfParts sgn p.1 p.2 0).num, (floatOfParts sgn p.1 p.2 0).den)
  | [mant, ex] =>
    (parseMantissa mant).bind fun p =>
      (parseExp ex).map fun e =>
        ((floatOfParts sgn p.1 p.2 e).num, (floatOfParts sgn p.1 p.2 e).den)
  | _ => Option.none

/-- The "Conversion would lose precision." error. -/
def losePrecision : PyErr := some "Conversion would lose precision."

/-- `IntegerConverter._convert` (lines 318-333): strip separators, detect the
base, parse; on base-10 failure retry as an exact decimal fraction, returning
the integer for a whole number and a precision-loss error otherwise. -/
def intConvertStr (s : String) : Except PyErr Int :=
  let s1 := removeSeps s
  let (s2, base) := getBase s1
  match parseIntBase s2 base with
  | some n => .ok n
  | Option.none =>
    if base == 10 then
      match decimalRatio s2 with
      | some nd => if nd.2 ≠ 1 then .error losePrecision else .ok nd.1
      | Option.none => .error Option.none
    else .error Option.none

/-- `IntegerConverter._non_string_convert` (lines 313-316): an integral float
becomes an integer, anything else loses precision. -/
def intNonStr (f : PyFloat) : Except PyErr Int :=
  if f.num % (f.den : Int) == 0 then .ok (f.num / (f.den : Int))
  else .error losePrecision

/-- The full `IntegerConverter` hooks: `value_types = (str, float)`,
`no_conversion_needed` is `isinstance(value, int)` (which includes `bool`). -/
def intHooks : ScalarHooks where
  tn := "integer"
  noConvNeeded := isIntV
  handlesValue := fun v => isinstAny v [.strCls, .floatCls]
  convertStr := fun s => (intConvertStr s).map vInt
  nonStrConvert := fun v =>
    match v with
    | vFloat q => (intNonStr q).map vInt
    | _ => .error Option.none

/-- `IntegerConverter.convert`. -/
def intConvert (v : Value) (name : Option String) (kind : String) : Res :=
  runPipeline intHooks v name kind

/-! ### Boolean conversion (`BooleanConverter`, lines 286-303) -/

/-- Modelled from the spec: the locale vocabulary provider (`robot.conf
.Languages`, external) exposing the true/false word lists. -/
structure Langs where
  trueStrings : List String
  falseStrings : List String

/-- `BooleanConverter._convert` (lines 295-303): title-case the text; `None`
yields the null value, a vocabulary hit yields a boolean, anything else is
returned unchanged. -/
def boolConvertStr (L : Langs) (s : String) : Res :=
  let normalized := pyTitle s
  if normalized == "None" then .ok vNone
  else if L.trueStrings.contains normalized then .ok (vBool true)
  else if L.falseStrings.contains normalized then .ok (vBool false)
  else .ok (vStr s)

/-- The `BooleanConverter` hooks: `value_types = (str, int, float, NoneType)`,
non-string input is returned unchanged (lines 290-293). -/
def boolHooks (L : Langs) : ScalarHooks where
  tn := "boolean"
  noConvNeeded := isBoolV
  handlesValue := fun v => isinstAny v [.strCls, .intCls, .floatCls, .noneCls]
  convertStr := boolConvertStr L
  nonStrConvert := fun v => .ok v

/-- `BooleanConverter.convert`. -/
def boolConvert (L : Langs) (v : Value) (name : Option String) (kind : String) : Res :=
  runPipeline (boolHooks L) v name kind

/-! ### String conversion (`StringConverter`, lines 270-283) -/

/-- The `StringConverter` hooks: handles anything, `str(value)`. -/
def strHooks : ScalarHooks where
  tn := "string"
  noConvNeeded := isStrV
  handlesValue := fun _ => true
  convertStr := fun s => .ok (vStr s)
  nonStrConvert := fun v => .ok (vStr (pyStr v))

/-- `StringConverter.convert`. -/
def strConvert (v : Value) (name : Option String) (kind : String) : Res :=
  runPipeline strHooks v name kind

/-! ### None conversion (`NoneConverter`, lines 452-464) -/

/-- The `NoneConverter` hooks: only the literal token `NONE`
(case-insensitively) converts, to `None`. -/
def noneHooks : ScalarHooks where
  tn := "None"
  noConvNeeded := isNoneV
  handlesValue := isStrV
  convertStr := fun s => if pyUpper s == "NONE" then .ok vNone else .error Option.none
  nonStrConvert := fun _ => .error Option.none

/-- `NoneConverter.convert`. -/
def noneConvert (v : Value) (name : Option String) (kind : String) : Res :=
  runPipeline noneHooks v name kind

/-! ### Enum conversion (`EnumConverter`, lines 201-247) -/

/-- An enum type as the converter sees it: its display name (also its class
identity), its members in declaration order (name and integral payload:
string-valued members never reach the value-lookup paths modelled here, so an
integral payload is carried for all), and whether the enum is int-backed
(`issubclass(enum, int)`). -/
structure EnumInfo where
  name : String
  members : List (String × Int)
  intBacked : Bool

/-- `getattr(enum, name)` for a member name known to exist. -/
def enumLookupVal (e : EnumInfo) (m : String) : Int :=
  ((e.members.find? fun p => p.1 == m).map fun p => p.2).getD 0

/-- Python `int(value)` on a raw string (used by the enum value fallback):
leading/trailing spaces are ignored, an optional sign precedes decimal
digits, and single underscores may separate digits. -/
def parsePyInt (s : String) : Option Int :=
  let cs := (((s.data.dropWhile fun c => c == ' ').reverse.dropWhile
    fun c => c == ' ').reverse)
  let (sgn, ds) := splitSign cs
  let underscoresOk :=
    ds.headD '0' ≠ '_' && ds.getLastD '0' ≠ '_'
      && ((ds.zip ds.tail).all fun p => !(p.1 == '_' && p.2 == '_'))
  let digits := ds.filter fun c => c ≠ '_'
  if ds.isEmpty || !underscoresOk || !allDigits digits then Option.none
  else some (sgn * (digitsToNat digits : Int))

/-- `EnumConverter._find_by_int_value` (lines 238-247): first member whose
value equals the integer, else a "does not have value" error listing the
sorted values. -/
def enumFindByInt (e : EnumInfo) (n : Int) : Res :=
  match e.members.find? fun p => p.2 == n with
  | some p => .ok (vEnum e.name p.1 n)
  | Option.none =>
    .error (some (e.name ++ " does not have value '" ++ toString n
      ++ "'. Available: "
      ++ seq2str "'" " and " ((sortInt (e.members.map fun p => p.2)).map toString)))

/-- `EnumConverter._find_by_normalized_name_or_int_value` (lines 218-236):
case/separator-insensitive matching over the sorted member names; a unique
hit wins, several hits are an ambiguity error, no hit falls back to the
integer value for int-backed enums, and the final error lists the members
(with values for int-backed enums). -/
def enumNormalized (e : EnumInfo) (s : String) : Res :=
  let members := sortStr (e.members.map fun p => p.1)
  let hits := members.filter fun m => eqNorm m s
  match hits with
  | [m] => .ok (vEnum e.name m (enumLookupVal e m))
  | [] =>
    let plain :=
      .error (some (e.name ++ " does not have member '" ++ s ++ "'. Available: "
        ++ seq2str "'" " and " members))
    let decorated : Res :=
      .error (some (e.name ++ " does not have member '" ++ s ++ "'. Available: "
        ++ seq2str "'" " and "
          (members.map fun m => m ++ " (" ++ toString (enumLookupVal e m) ++ ")")))
    if e.intBacked then
      match parsePyInt s with
      | some n =>
        match enumFindByInt e n with
        | .ok w => .ok w
        | .error _ => decorated
      | Option.none => decorated
    else plain
  | ms =>
    .error (some (e.name ++ " has multiple members matching '" ++ s
      ++ "'. Available: " ++ seq2str "'" " and " ms))

/-- The integer value of an `int` input (`bool` counts as `int`). -/
def toIntOf : Value → Int
  | vInt n => n
  | vBool b => if b then 1 else 0
  | _ => 0

/-- `EnumConverter._convert` on text (lines 209-216, string case): exact
member-name lookup first, then the normalized fallback. -/
def enumConvertStr (e : EnumInfo) (s : String) : Res :=
  match e.members.find? fun p => p.1 == s with
  | some p => .ok (vEnum e.name p.1 p.2)
  | Option.none => enumNormalized e s

/-- The `EnumConverter` hooks: `value_types` is `(str, int)` for int-backed
enums and `(str,)` otherwise; integer input goes straight to value lookup. -/
def enumHooks (e : EnumInfo) : ScalarHooks where
  tn := e.name
  noConvNeeded := fun v => isinst v (.enumOf e.name)
  handlesValue := fun v =>
    if e.intBacked then isinstAny v [.strCls, .intCls] else isStrV v
  convertStr := enumConvertStr e
  nonStrConvert := fun v =>
    if isIntV v then enumFindByInt e (toIntOf v) else .error Option.none

/-- `EnumConverter.convert`. -/
def enumConvert (e : EnumInfo) (v : Value) (name : Option String) (kind : String) : Res :=
  runPipeline (enumHooks e) v name kind

/-! ### Literal conversion (`LiteralConverter`, lines 735-790) -/

/-- The converter for a literal constant's own type
(`LiteralConverter.converter_for`, lines 745-753, which resolves the
converter of `type(constant)`), applied to the input.  The constants of a
Python `Literal` type are strings, ints, bools, `None` (or enum members,
which the model does not carry enough structure to rebuild; their slot falls
back to the unknown-converter pass-through here). -/
def litConvertInput (L : Langs) (lit : Value) (v : Value) : Res :=
  match typeTag lit with
  | .strTag => strConvert v Option.none "Argument"
  | .intTag => intConvert v Option.none "Argument"
  | .boolTag => boolConvert L v Option.none "Argument"
  | .noneTag => noneConvert v Option.none "Argument"
  | _ => .ok v

/-- The match test on a successfully converted candidate (lines 780-784):
`isinstance(expected, str) and eq(converted, expected, ignore="_-")
or converted == expected`.  When the constant is a string its converter is
the string converter, so the converted value is also a string. -/
def litMatched (lit conv : Value) : Bool :=
  (match lit, conv with
   | vStr le, vStr ce => eqNorm ce le
   | _, _ => false)
  || pyEq conv lit

/-- The loop of `LiteralConverter._convert` (lines 769-790): an exact
value-and-runtime-type match returns the constant immediately; otherwise the
constant's own-type conversion of the input is attempted and successful
converts that pass `litMatched` are collected; exactly one collected match is
returned, several raise the ambiguity error, none raises a bare error. -/
def literalLoop (L : Langs) : List Value → Value → List Value → Res
  | [], _, acc =>
    match acc with
    | [m] => .ok m
    | [] => .error Option.none
    | _ => .error (some "No unique match found.")
  | lit :: lits, v, acc =>
    if pyEq v lit && typeTag v == typeTag lit then .ok lit
    else
      match litConvertInput L lit v with
      | .ok conv => literalLoop L lits v (if litMatched lit conv then acc ++ [lit] else acc)
      | .error _ => literalLoop L lits v acc

/-- `LiteralConverter._get_type_name` (lines 741-743): the constants' names
joined with ` or ` (a constant's `TypeInfo.name` is its `repr`). -/
def literalTypeName (lits : List Value) : String :=
  seq2str "" " or " (lits.map pyRepr)

/-- `LiteralConverter.no_conversion_needed` (lines 759-764): some constant
matches in both value and exact runtime type. -/
def literalNoConv (lits : List Value) (v : Value) : Bool :=
  lits.any fun lit => pyEq v lit && typeTag v == typeTag lit

/-- The `LiteralConverter` hooks: handles any value. -/
def literalHooks (L : Langs) (lits : List Value) : ScalarHooks where
  tn := literalTypeName lits
  noConvNeeded := literalNoConv lits
  handlesValue := fun _ => true
  convertStr := fun s => literalLoop L lits (vStr s) []
  nonStrConvert := fun v => literalLoop L lits v []

/-- `LiteralConverter.convert`. -/
def literalConvert (L : Langs) (lits : List Value) (v : Value)
    (name : Option String) (kind : String) : Res :=
  runPipeline (literalHooks L lits) v name kind

/-! ### Restricted literal-expression evaluator

Modelled from the spec: the text path of every container converter parses the
string with a "restricted literal-expression evaluator" (`ast.literal_eval`,
an external module): Python-literal syntax only — brackets/braces, quoted
strings, numbers, `None`/`True`/`False`, nesting. -/

/-- Skip blanks. -/
def skipWs : List Char → List Char
  | c :: cs => if c == ' ' || c == '\t' || c == '\n' then skipWs cs else c :: cs
  | [] => []

/-- One escape character inside a quoted string. -/
def escChar (c : Char) : Char :=
  if c == 'n' then '\n' else if c == 't' then '\t' else c

/-- Quoted-string body up to the closing quote. -/
def parseStrLit (q : Char) (acc : List Char) : List Char → Option (String × List Char)
  | [] => Option.none
  | '\\' :: d :: rest => parseStrLit q (acc ++ [escChar d]) rest
  | c :: rest =>
    if c == q then some (⟨acc⟩, rest) else parseStrLit q (acc ++ [c]) rest

/-- Is the character a decimal digit? -/
def isDigitCh (c : Char) : Bool :=
  48 ≤ c.toNat && c.toNat ≤ 57

/-- A numeric literal: optional sign, digits, optional fraction, optional
exponent; an integer unless a point or exponent appears. -/
def parseNumLit (cs : List Char) : Option (Value × List Char) :=
  let (sgn, cs1) := splitSign cs
  let intPart := cs1.takeWhile isDigitCh
  let rest1 := cs1.dropWhile isDigitCh
  match rest1 with
  | '.' :: rest2 =>
    let fracPart := rest2.takeWhile isDigitCh
    let rest3 := rest2.dropWhile isDigitCh
    if intPart.isEmpty && fracPart.isEmpty then Option.none
    else
      let m := digitsToNat (intPart ++ fracPart)
      match rest3 with
      | 'e' :: rest4 =>
        let (esgn, ds) := splitSign rest4
        let eds := ds.takeWhile isDigitCh
        if eds.isEmpty then Option.none
        else some (vFloat (floatOfParts sgn m fracPart.length
            (esgn * (digitsToNat eds : Int))), ds.dropWhile isDigitCh)
      | _ => some (vFloat (floatOfParts sgn m fracPart.length 0), rest3)
  | 'e' :: rest2 =>
    if intPart.isEmpty then Option.none
    else
      let (esgn, ds) := splitSign rest2
      let eds := ds.takeWhile isDigitCh
      if eds.isEmpty then Option.none
      else some (vFloat (floatOfParts sgn (digitsToNat intPart) 0
          (esgn * (digitsToNat eds : Int))), ds.dropWhile isDigitCh)
  | _ =>
    if intPart.isEmpty then Option.none
    else some (vInt (sgn * (digitsToNat intPart : Int)), rest1)

mutual

/-- One literal value. -/
def parseVal : Nat → List Char → Option (Value × List Char)
  | 0, _ => Option.none
  | fuel + 1, cs =>
    match skipWs cs with
    | [] => Option.none
    | '\'' :: rest => (parseStrLit '\'' [] rest).map fun p => (vStr p.1, p.2)
    | '"' :: rest => (parseStrLit '"' [] rest).map fun p => (vStr p.1, p.2)
    | '[' :: rest => (parseElems fuel ']' rest).map fun p => (vList p.1, p.2.2)
    | '(' :: rest =>
      (parseElems fuel ')' rest).map fun p =>
        match p.1, p.2.1 with
        | [x], false => (x, p.2.2)
        | xs, _ => (vTuple xs, p.2.2)
    | '{' :: rest =>
      match skipWs rest with
      | '}' :: r => some (vDict [], r)
      | rest' =>
        match parseVal fuel rest' with
        | Option.none => Option.none
        | some (x, r1) =>
          match skipWs r1 with
          | ':' :: r2 =>
            match parseVal fuel r2 with
            | Option.none => Option.none
            | some (y, r3) => (parsePairs fuel [(x, y)] r3).map fun p => (vDict p.1, p.2)
          | r2 => (parseElemsLoop fuel '}' [x] false r2).map fun p => (vSet p.1, p.2.2)
    | 'N' :: 'o' :: 'n' :: 'e' :: rest => some (vNone, rest)
    | 'T' :: 'r' :: 'u' :: 'e' :: rest => some (vBool true, rest)
    | 'F' :: 'a' :: 'l' :: 's' :: 'e' :: rest => some (vBool false, rest)
    | cs' => parseNumLit cs'

/-- Comma-separated values up to the closing bracket; the boolean reports
whether any comma was seen (to tell `(x)` from `(x,)`). -/
def parseElems : Nat → Char → List Char → Option (List Value × Bool × List Char)
  | 0, _, _ => Option.none
  | fuel + 1, close, cs =>
    match skipWs cs with
    | c :: rest =>
      if c == close then some ([], false, rest)
      else
        match parseVal fuel (c :: rest) with
        | Option.none => Option.none
        | some (x, r) => parseElemsLoop fuel close [x] false r
    | [] => Option.none

/-- Remaining comma-separated values after the first. -/
def parseElemsLoop : Nat → Char → List Value → Bool → List Char →
    Option (List Value × Bool × List Char)
  | 0, _, _, _, _ => Option.none
  | fuel + 1, close, acc, sawComma, cs =>
    match skipWs cs with
    | c :: rest =>
      if c == close then some (acc, sawComma, rest)
      else if c == ',' then
        match skipWs rest with
        | d :: rest' =>
          if d == close then some (acc, true, rest')
          else
            match parseVal fuel (d :: rest') with
            | Option.none => Option.none
            | some (x, r) => parseElemsLoop fuel close (acc ++ [x]) true r
        | [] => Option.none
      else Option.none
    | [] => Option.none

/-- Remaining `key: value` entries of a dict literal. -/
def parsePairs : Nat → List (Value × Value) → List Char →
    Option (List (Value × Value) × List Char)
  | 0, _, _ => Option.none
  | fuel + 1, acc, cs =>
    match skipWs cs with
    | '}' :: rest => some (acc, rest)
    | ',' :: rest =>
      match skipWs rest with
      | '}' :: rest' => some (acc, rest')
      | rest' =>
        match parseVal fuel rest' with
        | Option.none => Option.none
        | some (k, r1) =>
          match skipWs r1 with
          | ':' :: r2 =>
            match parseVal fuel r2 with
            | Option.none => Option.none
            | some (v, r3) => parsePairs fuel (acc ++ [(k, v)]) r3
          | _ => Option.none
    | _ => Option.none

end

/-- Evaluate a whole string as one literal. -/
def literalEval (s : String) : Option Value :=
  match parseVal (2 * s.length + 4) s.data with
  | some (v, rest) => if (skipWs rest).isEmpty then some v else Option.none
  | Option.none => Option.none

/-- `TypeConverter._literal_eval` (lines 178-191): the `set()` special case,
parse failures become "Invalid expression.", and a result of the wrong
container kind is rejected naming both kinds. -/
def pyLiteralEvalChecked (s : String) (expected : TypeTag) (expectedName : String) :
    Except PyErr Value :=
  if expected == .setTag && s == "set()" then .ok (vSet [])
  else
    match literalEval s with
    | Option.none => .error (some "Invalid expression.")
    | some v =>
      if typeTag v == expected then .ok v
      else .error (some ("Value is " ++ typeName v ++ ", not " ++ expectedName ++ "."))

/-! ### Converter trees

`Conv` mirrors the converter instances built by `converter_for`: scalars are
leaves, composites own their nested converters, `unknownC` is the
unknown-type sentinel (falsy in Python via `__bool__`, lines 835-836).
Composite constructors carry their display `type_name` (in Python it is
`str(type_info)`, computed by the external descriptor). -/

inductive Conv where
  | anyC : Conv
  | strC : Conv
  | boolC : Langs → Conv
  | intC : Conv
  | noneC : Conv
  | enumC : EnumInfo → Conv
  | literalC : Langs → List Value → Conv
  | listC : String → Option Conv → Conv
  | tupleC : String → List Conv → Bool → Conv
  | setC : String → Option Conv → Conv
  | dictC : String → Option (Conv × Conv) → Conv
  | typedDictC : String → List (String × Conv) → List String → Conv
  | unionC : List Conv → Conv
  | unknownC : String → Conv

open Conv

/-- Python truthiness of a converter: only the unknown-type sentinel is falsy
(`UnknownConverter.__bool__`, lines 835-836). -/
def isTruthy : Conv → Bool
  | unknownC _ => false
  | _ => true

mutual

/-- `_get_type_name`: fixed names for scalar converters, the carried
`str(type_info)` for composites, and the derived ` or `-joined name for
unions (lines 706-708). -/
def typeNameOf : Conv → String
  | anyC => "Any"
  | strC => "string"
  | boolC _ => "boolean"
  | intC => "integer"
  | noneC => "None"
  | enumC e => e.name
  | literalC _ lits => literalTypeName lits
  | listC tn _ => tn
  | tupleC tn _ _ => tn
  | setC tn _ => tn
  | dictC tn _ => tn
  | typedDictC tn _ _ => tn
  | unionC cs => seq2str "" " or " (typeNamesOf cs)
  | unknownC tn => tn

/-- The type names of a union's branches. -/
def typeNamesOf : List Conv → List String
  | [] => []
  | c :: cs => typeNameOf c :: typeNamesOf cs

end

/-- Elements of a parsed list literal. -/
def listElems : Value → List Value
  | vList xs => xs
  | _ => []

/-- Elements of a parsed tuple literal. -/
def tupleElems : Value → List Value
  | vTuple xs => xs
  | _ => []

/-- Elements of a parsed set literal. -/
def setLitElems : Value → List Value
  | vSet xs => xs
  | _ => []

/-- Entries of a parsed dict literal. -/
def dictPairs : Value → List (Value × Value)
  | vDict ps => ps
  | _ => []

/-- `list(value)` / `tuple(value)` on a non-string sequence. -/
def seqElems : Value → List Value
  | vList xs => xs
  | vTuple xs => xs
  | _ => []

/-- `set(value)` on a non-string container (iterating a dict yields its
keys); Python's deduplication is not modelled — the converters only build
and traverse the elements. -/
def containerElems : Value → List Value
  | vList xs => xs
  | vTuple xs => xs
  | vSet xs => xs
  | vDict ps => ps.map fun p => p.1
  | _ => []

/-- The string keys of a dict input (`TypedDict` field lookup). -/
def dictStrKeys (ps : List (Value × Value)) : List String :=
  ps.filterMap fun p =>
    match p.1 with
    | vStr k => some k
    | _ => Option.none

/-- The fixed-arity length error of `TupleConverter._convert_items`
(lines 535-538). -/
def tupleLengthError (expected got : Nat) : PyErr :=
  some ("Expected " ++ toString expected ++ " item" ++ pluralS expected
    ++ ", got " ++ toString got ++ ".")

/-- The "not allowed" / "available" error of
`TypedDictConverter._convert_items` (lines 601-606). -/
def tdNotAllowedError (notAllowed available : List String) : PyErr :=
  let base := "Item" ++ pluralS notAllowed.length ++ " "
    ++ seq2str "'" " and " (sortStr notAllowed) ++ " not allowed."
  if available.isEmpty then some base
  else
    some (base ++ " Available item" ++ pluralS available.length ++ ": "
      ++ seq2str "'" " and " (sortStr available))

/-- The "required items missing" error of `TypedDictConverter._convert_items`
(lines 607-611). -/
def tdMissingError (missing : List String) : PyErr :=
  some ("Required item" ++ pluralS missing.length ++ " "
    ++ seq2str "'" " and " (sortStr missing) ++ " missing.")


/-! ### `no_conversion_needed` over a converter tree

The recursion over the converter tree is structural: the functions on the
tree produce closures over values, and the loops over input elements are
separate non-recursive helpers applied to those closures.  (This mirrors the
Python dispatch exactly: each converter instance owns its nested converters
and calls their bound `convert` / `no_conversion_needed` methods.) -/

/-- All elements satisfy the nested check. -/
def allLoop (f : Value → Bool) : List Value → Bool
  | [] => true
  | x :: xs => f x && allLoop f xs

/-- Position-wise checks for fixed-arity tuples. -/
def zipAllLoop : List (Value → Bool) → List Value → Bool
  | [], _ => true
  | _, [] => true
  | f :: fs, x :: xs => f x && zipAllLoop fs xs

/-- Every key and value satisfy the nested checks. -/
def pairsAllLoop (fk fv : Value → Bool) : List (Value × Value) → Bool
  | [] => true
  | (k, x) :: ps => fk k && fv x && pairsAllLoop fk fv ps

/-- Lookup of a `TypedDict` field by name; `Option.none` models `KeyError`. -/
def fieldLookup {α : Type} (fields : List (String × α)) (ks : String) : Option α :=
  match fields with
  | [] => Option.none
  | (fk, fc) :: rest => if fk == ks then some fc else fieldLookup rest ks

/-- `TypedDictConverter.no_conversion_needed` loop (lines 575-582): every
present key must be declared and its value already fine. -/
def tdAllLoop (fields : List (String × (Value → Bool))) : List (Value × Value) → Bool
  | [] => true
  | (k, x) :: ps =>
    match k with
    | vStr ks =>
      (match fieldLookup fields ks with
       | some f => f x && tdAllLoop fields ps
       | Option.none => false)
    | _ => false

/-- Any branch accepts the value as is. -/
def anyLoop (fs : List (Value → Bool)) (v : Value) : Bool :=
  match fs with
  | [] => false
  | f :: rest => f v || anyLoop rest v

mutual

/-- `no_conversion_needed` for every converter (base lines 139-146 with the
per-class overrides at lines 474-480, 508-518, 572-583, 625-635, 666-672,
717-718, 759-764).  The unknown sentinel reports `false` here: its declared
type is by definition not one the model's values inhabit. -/
def noConvF : Conv → Value → Bool
  | anyC, _ => true
  | strC, v => isStrV v
  | boolC _, v => isBoolV v
  | intC, v => isIntV v
  | noneC, v => isNoneV v
  | enumC e, v => isinst v (.enumOf e.name)
  | literalC _ lits, v => literalNoConv lits v
  | unknownC _, _ => false
  | listC _ nested, v =>
    isListV v &&
      (match noConvOptC nested with
       | Option.none => true
       | some f => allLoop f (listElems v))
  | tupleC _ nested homog, v =>
    isTupleV v &&
      (if nested.isEmpty then true
       else if homog then
         (match noConvListC nested with
          | f :: _ => allLoop f (tupleElems v)
          | [] => true)
       else
         ((tupleElems v).length == nested.length
           && zipAllLoop (noConvListC nested) (tupleElems v)))
  | setC _ nested, v =>
    isSetV v &&
      (match noConvOptC nested with
       | Option.none => true
       | some f => allLoop f (setLitElems v))
  | dictC _ nested, v =>
    isDictV v &&
      (match noConvPairC nested with
       | Option.none => true
       | some fp => pairsAllLoop fp.1 fp.2 (dictPairs v))
  | typedDictC _ fields required, v =>
    (match v with
     | vDict ps =>
       tdAllLoop (noConvFieldsC fields) ps
         && required.all fun k => (dictStrKeys ps).contains k
     | _ => false)
  | unionC cs, v => anyLoop (noConvListC cs) v

/-- The checks of an optional nested converter. -/
def noConvOptC : Option Conv → Option (Value → Bool)
  | Option.none => Option.none
  | some c => some (noConvF c)

/-- The checks of a nested key/value pair. -/
def noConvPairC : Option (Conv × Conv) → Option ((Value → Bool) × (Value → Bool))
  | Option.none => Option.none
  | some (ck, cv) => some (noConvF ck, noConvF cv)

/-- The checks of a positional nested list. -/
def noConvListC : List Conv → List (Value → Bool)
  | [] => []
  | c :: cs => noConvF c :: noConvListC cs

/-- The checks of the named fields of a record. -/
def noConvFieldsC : List (String × Conv) → List (String × (Value → Bool))
  | [] => []
  | (k, c) :: fs => (k, noConvF c) :: noConvFieldsC fs

end

/-- `no_conversion_needed` of a converter tree. -/
def noConv (c : Conv) : Value → Bool :=
  noConvF c

/-! ### `convert` over a converter tree -/

/-- The bound `convert` method of a converter: value, optional name, kind. -/
abbrev ConvFun := Value → Option String → String → Res

/-- `ListConverter._convert_items` element loop (lines 491-494): each element
converted with its 0-based index as the name and kind `Item`. -/
def itemsLoop (f : ConvFun) (i : Nat) : List Value → Except PyErr (List Value)
  | [] => .ok []
  | x :: xs =>
    match f x (some (toString i)) "Item" with
    | .error e => .error e
    | .ok w =>
      (match itemsLoop f (i + 1) xs with
       | .error e => .error e
       | .ok ws => .ok (w :: ws))

/-- `SetConverter._convert_items` element loop (lines 683-684): kind `Item`,
no name. -/
def itemsLoopNN (f : ConvFun) : List Value → Except PyErr (List Value)
  | [] => .ok []
  | x :: xs =>
    match f x Option.none "Item" with
    | .error e => .error e
    | .ok w =>
      (match itemsLoopNN f xs with
       | .error e => .error e
       | .ok ws => .ok (w :: ws))

/-- Fixed-arity tuple loop (lines 539-542): each position converted by its
own converter, the position as the name. -/
def zipLoop : List ConvFun → Nat → List Value → Except PyErr (List Value)
  | [], _, _ => .ok []
  | _ :: _, _, [] => .ok []
  | f :: fs, i, x :: xs =>
    match f x (some (toString i)) "Item" with
    | .error e => .error e
    | .ok w =>
      (match zipLoop fs (i + 1) xs with
       | .error e => .error e
       | .ok ws => .ok (w :: ws))

/-- `DictionaryConverter._convert_items` loop (lines 648-656): keys are
converted with no name and kind `Key`, values with the original key as the
name (`None` when the key is the `None` value) and kind `Item`. -/
def pairsLoop (fk fv : ConvFun) : List (Value × Value) → Except PyErr (List (Value × Value))
  | [] => .ok []
  | (k, x) :: ps =>
    match fk k Option.none "Key" with
    | .error e => .error e
    | .ok k' =>
      (match fv x
          (match k with
           | vNone => Option.none
           | _ => some (pyStr k)) "Item" with
       | .error e => .error e
       | .ok x' =>
         (match pairsLoop fk fv ps with
          | .error e => .error e
          | .ok qs => .ok ((k', x') :: qs)))

/-- The conversion loop over the input entries of a `TypedDict`
(lines 593-600): a declared key's value is converted (name = the key, kind
`Item`, skipped for a falsy converter), an undeclared or non-string key is
collected as not allowed. -/
def tdLoop (fields : List (String × Bool × ConvFun)) :
    List (Value × Value) → Except PyErr (List (Value × Value) × List String)
  | [] => .ok ([], [])
  | (k, x) :: ps =>
    match k with
    | vStr ks =>
      (match fieldLookup fields ks with
       | Option.none =>
         (match tdLoop fields ps with
          | .error e => .error e
          | .ok (cv, na) => .ok ((k, x) :: cv, ks :: na))
       | some (truthy, f) =>
         (match (if truthy then f x (some ks) "Item" else .ok x) with
          | .error e => .error e
          | .ok x' =>
            (match tdLoop fields ps with
             | .error e => .error e
             | .ok (cv, na) => .ok ((k, x') :: cv, na))))
    | _ =>
      (match tdLoop fields ps with
       | .error e => .error e
       | .ok (cv, na) => .ok ((k, x) :: cv, pyStr k :: na))

/-- `TupleConverter._convert_items` (lines 526-542): no nesting keeps the
tuple; homogeneous tuples convert every item with the first nested converter;
fixed-arity tuples require the exact length and convert position-wise. -/
def tupleItemsF (fs : List ConvFun) (homog : Bool) (xs : List Value) : Res :=
  if fs.isEmpty then .ok (vTuple xs)
  else if homog then
    (match fs with
     | f :: _ =>
       (match itemsLoop f 0 xs with
        | .error e => .error e
        | .ok ws => .ok (vTuple ws))
     | [] => .ok (vTuple xs))
  else if xs.length != fs.length then
    .error (tupleLengthError fs.length xs.length)
  else
    match zipLoop fs 0 xs with
    | .error e => .error e
    | .ok ws => .ok (vTuple ws)

/-- `TypedDictConverter._convert_items` (lines 591-612): convert the values
of declared keys, collect unknown keys, then report not-allowed and
missing-required keys. -/
def tdItemsF (fields : List (String × Bool × ConvFun)) (required : List String)
    (ps : List (Value × Value)) : Res :=
  match tdLoop fields ps with
  | .error e => .error e
  | .ok (converted, notAllowed) =>
    if !notAllowed.isEmpty then
      let available := (fields.map fun f => f.1).filter
        fun k => !(dictStrKeys ps).contains k
      .error (tdNotAllowedError notAllowed available)
    else
      let missing := required.filter fun k => !(dictStrKeys ps).contains k
      if !missing.isEmpty then .error (tdMissingError missing)
      else .ok (vDict converted)

/-- `UnionConverter._convert` loop (lines 720-732): truthy branches are
tried in order and the first success wins; a falsy (unknown) branch sets the
pass-through flag; exhaustion returns the value when the flag is set and
raises a bare `ValueError` otherwise. -/
def unionLoop (branches : List (Bool × ConvFun)) (v : Value) (unknown : Bool) : Res :=
  match branches with
  | [] => if unknown then .ok v else .error Option.none
  | (truthy, f) :: rest =>
    if truthy then
      match f v Option.none "Argument" with
      | .ok w => .ok w
      | .error _ => unionLoop rest v unknown
    else unionLoop rest v true

mutual

/-- Model of `convert` for a whole converter tree: scalar leaves delegate to
their standalone pipelines, the unknown sentinel passes everything through
(its `convert` override, lines 829-830), and the composite and union
converters run the base pipeline (lines 122-137) with their `_convert` /
`_non_string_convert` bodies inlined (the wrap through `_handle_error` is
distributed over the branches of the inner computation). -/
def pyConvertF : Conv → ConvFun
  | unknownC _ => fun v _ _ => .ok v
  | anyC => fun v _ _ => .ok v
  | strC => strConvert
  | boolC L => boolConvert L
  | intC => intConvert
  | noneC => noneConvert
  | enumC e => enumConvert e
  | literalC L lits => literalConvert L lits
  | listC tn nested => fun v name kind =>
    if noConvF (listC tn nested) v then .ok v
    else if !(isinstAny v [.strCls, .seqAbc]) then
      .error (handleError tn v name kind Option.none)
    else
      (match v with
       | vStr s =>
         (match pyLiteralEvalChecked s .listTag "list" with
          | .error e => .error (handleError tn (vStr s) name kind (some e))
          | .ok w =>
            (match pyConvertOptC nested with
             | Option.none => .ok (vList (listElems w))
             | some f =>
               (match itemsLoop f 0 (listElems w) with
                | .error e => .error (handleError tn (vStr s) name kind (some e))
                | .ok ws => .ok (vList ws))))
       | w =>
         (match pyConvertOptC nested with
          | Option.none => .ok (vList (seqElems w))
          | some f =>
            (match itemsLoop f 0 (seqElems w) with
             | .error e => .error (handleError tn w name kind (some e))
             | .ok ws => .ok (vList ws))))
  | tupleC tn nested homog => fun v name kind =>
    if noConvF (tupleC tn nested homog) v then .ok v
    else if !(isinstAny v [.strCls, .seqAbc]) then
      .error (handleError tn v name kind Option.none)
    else
      (match v with
       | vStr s =>
         (match pyLiteralEvalChecked s .tupleTag "tuple" with
          | .error e => .error (handleError tn (vStr s) name kind (some e))
          | .ok w =>
            (match tupleItemsF (pyConvertListC nested) homog (tupleElems w) with
             | .error e => .error (handleError tn (vStr s) name kind (some e))
             | .ok w' => .ok w'))
       | w =>
         (match tupleItemsF (pyConvertListC nested) homog (seqElems w) with
          | .error e => .error (handleError tn w name kind (some e))
          | .ok w' => .ok w'))
  | setC tn nested => fun v name kind =>
    if noConvF (setC tn nested) v then .ok v
    else if !(isinstAny v [.strCls, .containerAbc]) then
      .error (handleError tn v name kind Option.none)
    else
      (match v with
       | vStr s =>
         (match pyLiteralEvalChecked s .setTag "set" with
          | .error e => .error (handleError tn (vStr s) name kind (some e))
          | .ok w =>
            (match pyConvertOptC nested with
             | Option.none => .ok (vSet (setLitElems w))
             | some f =>
               (match itemsLoopNN f (setLitElems w) with
                | .error e => .error (handleError tn (vStr s) name kind (some e))
                | .ok ws => .ok (vSet ws))))
       | w =>
         (match pyConvertOptC nested with
          | Option.none => .ok (vSet (containerElems w))
          | some f =>
            (match itemsLoopNN f (containerElems w) with
             | .error e => .error (handleError tn w name kind (some e))
             | .ok ws => .ok (vSet ws))))
  | dictC tn nested => fun v name kind =>
    if noConvF (dictC tn nested) v then .ok v
    else if !(isinstAny v [.strCls, .mapAbc]) then
      .error (handleError tn v name kind Option.none)
    else
      (match v with
       | vStr s =>
         (match pyLiteralEvalChecked s .dictTag "dict" with
          | .error e => .error (handleError tn (vStr s) name kind (some e))
          | .ok w =>
            (match pyConvertPairC nested with
             | Option.none => .ok (vDict (dictPairs w))
             | some fp =>
               (match pairsLoop fp.1 fp.2 (dictPairs w) with
                | .error e => .error (handleError tn (vStr s) name kind (some e))
                | .ok qs => .ok (vDict qs))))
       | w =>
         (match pyConvertPairC nested with
          | Option.none => .ok (vDict (dictPairs w))
          | some fp =>
            (match pairsLoop fp.1 fp.2 (dictPairs w) with
             | .error e => .error (handleError tn w name kind (some e))
             | .ok qs => .ok (vDict qs))))
  | typedDictC tn fields required => fun v name kind =>
    if noConvF (typedDictC tn fields required) v then .ok v
    else if !(isinstAny v [.strCls, .mapAbc]) then
      .error (handleError tn v name kind Option.none)
    else
      (match v with
       | vStr s =>
         (match pyLiteralEvalChecked s .dictTag "dict" with
          | .error e => .error (handleError tn (vStr s) name kind (some e))
          | .ok w =>
            (match tdItemsF (pyConvertFieldsC fields) required (dictPairs w) with
             | .error e => .error (handleError tn (vStr s) name kind (some e))
             | .ok w' => .ok w'))
       | w =>
         (match tdItemsF (pyConvertFieldsC fields) required (dictPairs w) with
          | .error e => .error (handleError tn w name kind (some e))
          | .ok w' => .ok w'))
  | unionC cs => fun v name kind =>
    if noConvF (unionC cs) v then .ok v
    else
      (match unionLoop (pyConvertBranches cs) v false with
       | .ok w => .ok w
       | .error e => .error (handleError (typeNameOf (unionC cs)) v name kind (some e)))

/-- The bound `convert` of an optional nested converter. -/
def pyConvertOptC : Option Conv → Option ConvFun
  | Option.none => Option.none
  | some c => some (pyConvertF c)

/-- The bound `convert`s of a nested key/value pair. -/
def pyConvertPairC : Option (Conv × Conv) → Option (ConvFun × ConvFun)
  | Option.none => Option.none
  | some (ck, cv) => some (pyConvertF ck, pyConvertF cv)

/-- The bound `convert`s of a positional nested list. -/
def pyConvertListC : List Conv → List ConvFun
  | [] => []
  | c :: cs => pyConvertF c :: pyConvertListC cs

/-- The truthiness and bound `convert` of each union branch. -/
def pyConvertBranches : List Conv → List (Bool × ConvFun)
  | [] => []
  | c :: cs => (isTruthy c, pyConvertF c) :: pyConvertBranches cs

/-- The name, truthiness and bound `convert` of each record field. -/
def pyConvertFieldsC : List (String × Conv) → List (String × Bool × ConvFun)
  | [] => []
  | (k, c) :: fs => (k, isTruthy c, pyConvertF c) :: pyConvertFieldsC fs

end

/-- `convert` of a converter tree (`TypeConverter.convert`). -/
def pyConvert (c : Conv) : ConvFun :=
  pyConvertF c

/-- `UnionConverter._convert` (lines 720-732) for a branch list. -/
def unionTry (cs : List Conv) (v : Value) (unknown : Bool) : Res :=
  unionLoop (pyConvertBranches cs) v unknown

/-- The element conversion of `ListConverter._convert_items` for a nested
converter. -/
def convItems (c : Conv) : Nat → List Value → Except PyErr (List Value) :=
  itemsLoop (pyConvertF c)

/-- The element conversion of `SetConverter._convert_items` for a nested
converter. -/
def convItemsNN (c : Conv) : List Value → Except PyErr (List Value) :=
  itemsLoopNN (pyConvertF c)

/-- The position-wise conversion of a fixed-arity tuple. -/
def convZip (cs : List Conv) : Nat → List Value → Except PyErr (List Value) :=
  zipLoop (pyConvertListC cs)

/-- The key/value conversion of `DictionaryConverter._convert_items`. -/
def convPairs (ck cv : Conv) : List (Value × Value) → Except PyErr (List (Value × Value)) :=
  pairsLoop (pyConvertF ck) (pyConvertF cv)

/-- `TupleConverter._convert_items` for a nested converter list. -/
def tupleItems (nested : List Conv) (homog : Bool) (xs : List Value) : Res :=
  tupleItemsF (pyConvertListC nested) homog xs

/-- `TypedDictConverter._convert_items` for a field table. -/
def tdItems (fields : List (String × Conv)) (required : List String)
    (ps : List (Value × Value)) : Res :=
  tdItemsF (pyConvertFieldsC fields) required ps

/-! ### Converter resolution (`TypeConverter.converter_for`, lines 96-115)

The dispatch view of a type descriptor: the Python object in its `type` slot
(a class with its subclass closure, one of the special forms `Any` / `Union`
/ `Literal`, or absent), plus the `is_union` / `is_typed_dict` flags the
overridden `handles` predicates consult. -/

/-- The registry key / declared-type object of a descriptor.  A `cls` carries
the names of everything it is a subclass of (its own name, its bases, and
the abstract base classes it is registered against), which is what
`issubclass` consults. -/
inductive PyKey where
  | cls : String → List String → PyKey
  | anyK : PyKey
  | unionK : PyKey
  | literalK : PyKey
  | typedDictStr : PyKey
deriving DecidableEq

/-- The dispatch-relevant part of a `TypeInfo`. -/
structure TypeInfoD where
  type : Option PyKey
  isUnion : Bool
  isTypedDict : Bool

/-- `isinstance(type_info.type, type)`: only actual classes. -/
def isClassK : PyKey → Bool
  | .cls _ _ => true
  | _ => false

/-- `issubclass(k, c)` by name against the carried subclass closure. -/
def subOf (k : PyKey) (n : String) : Bool :=
  match k with
  | .cls _ supers => supers.contains n
  | _ => false

/-- The default `TypeConverter.handles` (lines 117-120): the declared type is
a class and a subclass of the converter's type or its abstract base class. -/
def defaultHandles (names : List String) (ti : TypeInfoD) : Bool :=
  match ti.type with
  | some k => isClassK k && names.any fun n => subOf k n
  | Option.none => false

/-- The registered converter classes, the custom adapter and the sentinel. -/
inductive ConvClass where
  | enumCls | anyCls | strCls | boolCls | intCls | floatCls | decimalCls
  | bytesCls | bytearrayCls | datetimeCls | dateCls | timedeltaCls | pathCls
  | noneCls | listCls | tupleCls | typedDictCls | dictCls | setCls
  | frozensetCls | unionCls | literalCls
  | customCls : String → ConvClass
  | unknownCls : ConvClass
deriving DecidableEq

/-- The canonical registry key of each built-in class used below. -/
def enumKey : PyKey := .cls "Enum" ["Enum", "object"]
/-- `str`. -/
def strKey : PyKey := .cls "str" ["str", "Sequence", "Container", "object"]
/-- `bool` (a subclass of `int` and of the numeric ABCs). -/
def boolKey : PyKey := .cls "bool" ["bool", "int", "Integral", "Real", "object"]
/-- `int`. -/
def intKey : PyKey := .cls "int" ["int", "Integral", "Real", "object"]
/-- `float`. -/
def floatKey : PyKey := .cls "float" ["float", "Real", "object"]
/-- `decimal.Decimal`. -/
def decimalKey : PyKey := .cls "Decimal" ["Decimal", "object"]
/-- `bytes`. -/
def bytesKey : PyKey := .cls "bytes" ["bytes", "Sequence", "Container", "object"]
/-- `bytearray`. -/
def bytearrayKey : PyKey := .cls "bytearray" ["bytearray", "Sequence", "Container", "object"]
/-- `datetime.datetime` (a subclass of `date`). -/
def datetimeKey : PyKey := .cls "datetime" ["datetime", "date", "object"]
/-- `datetime.date`. -/
def dateKey : PyKey := .cls "date" ["date", "object"]
/-- `datetime.timedelta`. -/
def timedeltaKey : PyKey := .cls "timedelta" ["timedelta", "object"]
/-- `pathlib.Path`. -/
def pathKey : PyKey := .cls "Path" ["Path", "PurePath", "PathLike", "object"]
/-- `NoneType`. -/
def noneTypeKey : PyKey := .cls "NoneType" ["NoneType", "object"]
/-- `list`. -/
def listKey : PyKey := .cls "list" ["list", "Sequence", "Container", "object"]
/-- `tuple`. -/
def tupleKey : PyKey := .cls "tuple" ["tuple", "Sequence", "Container", "object"]
/-- `dict`. -/
def dictKey : PyKey := .cls "dict" ["dict", "Mapping", "Container", "object"]
/-- `set`. -/
def setKey : PyKey := .cls "set" ["set", "Set", "Container", "object"]
/-- `frozenset`. -/
def frozensetKey : PyKey := .cls "frozenset" ["frozenset", "Set", "Container", "object"]

/-- The ordered converter registry built by the `@TypeConverter.register`
decorations (an `OrderedDict` keyed by `converter.type`, in source order,
lines 201-737): key, converter class, and its `handles` predicate.  The
default `handles` lists the converter's `type` and `abc`; `Any`, `None`,
`TypedDict`, `Union` and `Literal` override `handles` (lines 256-258,
457-459, 568-570, 710-712, 755-757).  `FrozenSetConverter` inherits
`SetConverter`'s `abc = Set`. -/
def registry : List (PyKey × ConvClass × (TypeInfoD → Bool)) :=
  [ (enumKey, .enumCls, defaultHandles ["Enum"]),
    (.anyK, .anyCls, fun ti => ti.type == some .anyK),
    (strKey, .strCls, defaultHandles ["str"]),
    (boolKey, .boolCls, defaultHandles ["bool"]),
    (intKey, .intCls, defaultHandles ["int", "Integral"]),
    (floatKey, .floatCls, defaultHandles ["float", "Real"]),
    (decimalKey, .decimalCls, defaultHandles ["Decimal"]),
    (bytesKey, .bytesCls, defaultHandles ["bytes"]),
    (bytearrayKey, .bytearrayCls, defaultHandles ["bytearray"]),
    (datetimeKey, .datetimeCls, defaultHandles ["datetime"]),
    (dateKey, .dateCls, defaultHandles ["date"]),
    (timedeltaKey, .timedeltaCls, defaultHandles ["timedelta"]),
    (pathKey, .pathCls, defaultHandles ["Path", "PathLike"]),
    (noneTypeKey, .noneCls,
      fun ti => ti.type == some noneTypeKey || ti.type == Option.none),
    (listKey, .listCls, defaultHandles ["list", "Sequence"]),
    (tupleKey, .tupleCls, defaultHandles ["tuple"]),
    (.typedDictStr, .typedDictCls, fun ti => ti.isTypedDict),
    (dictKey, .dictCls, defaultHandles ["dict", "Mapping"]),
    (setKey, .setCls, defaultHandles ["set", "Set"]),
    (frozensetKey, .frozensetCls, defaultHandles ["frozenset", "Set"]),
    (.unionK, .unionCls, fun ti => ti.isUnion),
    (.literalK, .literalCls, fun ti => ti.type == some .literalK) ]

/-- Modelled from the spec: the custom-converter registry (external
`CustomArgumentConverters`) maps application types to converter infos by
exact primary type; an empty list models an absent/empty (falsy) registry.
Each entry carries the converter's display name. -/
def getCustomInfo (cr : List (PyKey × String)) (t : PyKey) : Option String :=
  (cr.find? fun p => p.1 == t).map fun p => p.2

/-- Steps 3-5 of the resolution: exact registry match, then the first
registered `handles`, then the unknown sentinel (lines 109-115). -/
def builtinFor (ti : TypeInfoD) (t : PyKey) : ConvClass :=
  match registry.find? fun e => e.1 == t with
  | some e => e.2.1
  | Option.none =>
    match registry.find? fun e => e.2.2 ti with
    | some e => e.2.1
    | Option.none => .unknownCls

/-- `TypeConverter.converter_for` (lines 96-115): absent type → sentinel;
custom registry hit on the exact type → custom adapter; exact built-in
match; first structural `handles` match; sentinel. -/
def converterFor (ti : TypeInfoD) (cr : List (PyKey × String)) : ConvClass :=
  match ti.type with
  | Option.none => .unknownCls
  | some t =>
    if cr.isEmpty then builtinFor ti t
    else
      match getCustomInfo cr t with
      | some nm => .customCls nm
      | Option.none => builtinFor ti t

/-- One `TypedDict` input entry converts without raising: its key is
undeclared or non-string (merely collected), its field converter is falsy
(skipped), or the field conversion succeeds. -/
def tdEntryConverts (fields : List (String × Conv)) (k x : Value) : Prop :=
  match k with
  | vStr ks =>
    (match fieldLookup fields ks with
     | some c => isTruthy c = true → ∃ w, pyConvert c x (some ks) "Item" = .ok w
     | Option.none => True)
  | _ => True

/-- A concrete vocabulary used by the witnesses (the default English words
of the external provider). -/
def defaultLangsW : Langs :=
  ⟨["True", "Yes", "On", "1"], ["False", "No", "Off", "0"]⟩

/-- Does the input convert-and-match against one literal constant
(the collected-match test of the loop at lines 775-785)? -/
def litMatchB (L : Langs) (lit v : Value) : Bool :=
  match litConvertInput L lit v with
  | .ok conv => litMatched lit conv
  | .error _ => false

/-! ### Supporting lemmas -/

/-- `Char.ofNat` on a valid code point round-trips through `toNat`. -/
theorem toNat_ofNatChar {n : Nat} (h : n < 55296) : (Char.ofNat n).toNat = n := by
  rw [Char.ofNat, dif_pos (Or.inl h)]
  simp [Char.toNat, Char.ofNatAux, UInt32.ofNat', UInt32.toNat]

/-- Inversion of `lowerChar` at a lower-case letter target. -/
theorem lowerChar_inv {c d : Char} (h : lowerChar c = d) :
    c = d ∨ (65 ≤ c.toNat ∧ c.toNat ≤ 90 ∧ c.toNat + 32 = d.toNat) := by
  unfold lowerChar at h
  by_cases hr : 65 ≤ c.toNat ∧ c.toNat ≤ 90
  · right
    refine ⟨hr.1, hr.2, ?_⟩
    rw [if_pos hr] at h
    have := congrArg Char.toNat h
    rwa [toNat_ofNatChar (by omega)] at this
  · left
    rwa [if_neg hr] at h

/-- A character whose lower-casing is a letter is a letter. -/
theorem alpha_of_lowerChar {c d : Char} (hd : isAsciiAlpha d = true)
    (h : lowerChar c = d) : isAsciiAlpha c = true := by
  rcases lowerChar_inv h with h' | ⟨h1, h2, _⟩
  · rwa [h']
  · unfold isAsciiAlpha
    simp only [Bool.or_eq_true, decide_eq_true_eq, Bool.and_eq_true]
    omega

/-- Recover a character from its concrete code point. -/
theorem char_eq_of_toNat {c : Char} {n : Nat} (h : c.toNat = n) :
    c = Char.ofNat n := by
  rw [← h, Char.ofNat_toNat]

/-- A character lower-casing to `n` is `n` or `N`. -/
theorem lowerChar_eq_n {c : Char} (h : lowerChar c = 'n') : c = 'n' ∨ c = 'N' := by
  rcases lowerChar_inv h with h' | ⟨h1, h2, h3⟩
  · exact Or.inl h'
  · right
    have hc : c.toNat = 78 := by
      have hn : ('n' : Char).toNat = 110 := by decide
      omega
    have := char_eq_of_toNat hc
    simpa using this

/-- Upper-casing any character lower-casing to `n` gives `N`. -/
theorem upperChar_of_lower_n {c : Char} (h : lowerChar c = 'n') : upperChar c = 'N' := by
  rcases lowerChar_eq_n h with h' | h' <;> subst h' <;> decide

/-- The bridge for the boolean converter's `None` token: a string whose
lower-casing is `none` title-cases to `None`, so the code's
`value.title() == "None"` test is exactly case-insensitive matching of the
token. -/
theorem pyTitle_none_of_lower {s : String} (h : pyLower s = "none") :
    pyTitle s = "None" := by
  have hd : s.data.map lowerChar = ['n', 'o', 'n', 'e'] := by
    have := congrArg String.data h
    simpa [pyLower] using this
  obtain ⟨a, rest1, ha⟩ : ∃ a r, s.data = a :: r := by
    cases hs : s.data with
    | nil => rw [hs] at hd; simp at hd
    | cons a r => exact ⟨a, r, rfl⟩
  obtain ⟨b, rest2, hb⟩ : ∃ b r, rest1 = b :: r := by
    cases hs : rest1 with
    | nil => rw [ha, hs] at hd; simp at hd
    | cons b r => exact ⟨b, r, rfl⟩
  obtain ⟨c, rest3, hc⟩ : ∃ c r, rest2 = c :: r := by
    cases hs : rest2 with
    | nil => rw [ha, hb, hs] at hd; simp at hd
    | cons c r => exact ⟨c, r, rfl⟩
  obtain ⟨d, rest4, hdd⟩ : ∃ d r, rest3 = d :: r := by
    cases hs : rest3 with
    | nil => rw [ha, hb, hc, hs] at hd; simp at hd
    | cons d r => exact ⟨d, r, rfl⟩
  rw [ha, hb, hc, hdd] at hd
  have hnil : rest4 = [] := by
    cases hs : rest4 with
    | nil => rfl
    | cons x r => rw [hs] at hd; simp at hd
  rw [hnil] at hd
  simp only [List.map_cons, List.map_nil, List.cons.injEq, and_true] at hd
  obtain ⟨h1, h2, h3, h4⟩ := hd
  have ha1 : isAsciiAlpha a = true := alpha_of_lowerChar (by decide) h1
  have hb1 : isAsciiAlpha b = true := alpha_of_lowerChar (by decide) h2
  have hc1 : isAsciiAlpha c = true := alpha_of_lowerChar (by decide) h3
  have hupper : upperChar a = 'N' := upperChar_of_lower_n h1
  show (⟨pyTitleAux false s.data⟩ : String) = "None"
  rw [ha, hb, hc, hdd, hnil]
  simp only [pyTitleAux, ha1, hb1, hc1, if_true, Bool.false_eq_true, if_false]
  by_cases hd1 : isAsciiAlpha d = true
  · rw [if_pos hd1, hupper, h2, h3, h4]
  · rw [if_neg hd1, hupper, h2, h3]
    have hde : d = 'e' := by
      rcases lowerChar_inv h4 with h' | ⟨x1, x2, _⟩
      · exact h'
      · exfalso
        apply hd1
        unfold isAsciiAlpha
        simp only [Bool.or_eq_true, decide_eq_true_eq, Bool.and_eq_true]
        omega
    rw [hde]

/-! ### The claims -/

/-- C9: the boolean converter on textual input normalizes the value to title
case and then: the token `None` (case-insensitively) yields the null value;
a value in the vocabulary provider's true word list yields true; a value in
the false word list yields false; and any other text is returned unchanged
rather than raising an error. -/
theorem claim_C9 (L : Langs) (s : String) :
    (pyLower s = "none" →
      pyConvert (boolC L) (vStr s) Option.none "Argument" = .ok vNone)
    ∧ (pyTitle s ≠ "None" → L.trueStrings.contains (pyTitle s) = true →
      pyConvert (boolC L) (vStr s) Option.none "Argument" = .ok (vBool true))
    ∧ (pyTitle s ≠ "None" → L.trueStrings.contains (pyTitle s) = false →
      L.falseStrings.contains (pyTitle s) = true →
      pyConvert (boolC L) (vStr s) Option.none "Argument" = .ok (vBool false))
    ∧ (pyTitle s ≠ "None" → L.trueStrings.contains (pyTitle s) = false →
      L.falseStrings.contains (pyTitle s) = false →
      pyConvert (boolC L) (vStr s) Option.none "Argument" = .ok (vStr s)) := by
  refine ⟨?_, ?_, ?_, ?_⟩
  · intro h
    have ht := pyTitle_none_of_lower h
    show boolConvert L (vStr s) Option.none "Argument" = .ok vNone
    simp [boolConvert, runPipeline, boolHooks, isBoolV, isinstAny, isinst, isStrV,
      boolConvertStr, ht]
  · intro h1 h2
    have h2' : pyTitle s ∈ L.trueStrings := by simpa using h2
    show boolConvert L (vStr s) Option.none "Argument" = .ok (vBool true)
    simp [boolConvert, runPipeline, boolHooks, isBoolV, isinstAny, isinst, isStrV,
      boolConvertStr, h1, h2']
  · intro h1 h2 h3
    have h2' : pyTitle s ∉ L.trueStrings := by simpa using h2
    have h3' : pyTitle s ∈ L.falseStrings := by simpa using h3
    show boolConvert L (vStr s) Option.none "Argument" = .ok (vBool false)
    simp [boolConvert, runPipeline, boolHooks, isBoolV, isinstAny, isinst, isStrV,
      boolConvertStr, h1, h2', h3']
  · intro h1 h2 h3
    have h2' : pyTitle s ∉ L.trueStrings := by simpa using h2
    have h3' : pyTitle s ∉ L.falseStrings := by simpa using h3
    show boolConvert L (vStr s) Option.none "Argument" = .ok (vStr s)
    simp [boolConvert, runPipeline, boolHooks, isBoolV, isinstAny, isinst, isStrV,
      boolConvertStr, h1, h2', h3']

/-- C9 witness: the default English vocabulary at concrete inputs. -/
theorem claim_C9_witness :
    pyConvert (boolC ⟨["True", "Yes", "On", "1"], ["False", "No", "Off", "0"]⟩)
        (vStr "nONe") Option.none "Argument" = .ok vNone
    ∧ pyConvert (boolC ⟨["True", "Yes", "On", "1"], ["False", "No", "Off", "0"]⟩)
        (vStr "yes") Option.none "Argument" = .ok (vBool true)
    ∧ pyConvert (boolC ⟨["True", "Yes", "On", "1"], ["False", "No", "Off", "0"]⟩)
        (vStr "OFF") Option.none "Argument" = .ok (vBool false)
    ∧ pyConvert (boolC ⟨["True", "Yes", "On", "1"], ["False", "No", "Off", "0"]⟩)
        (vStr "maybe") Option.none "Argument" = .ok (vStr "maybe") := by
  refine ⟨?_, ?_, ?_, ?_⟩
  · exact (claim_C9 _ "nONe").1 (by rfl)
  · exact (claim_C9 _ "yes").2.1 (by decide) (by rfl)
  · exact (claim_C9 _ "OFF").2.2.1 (by decide) (by rfl) (by rfl)
  · exact (claim_C9 _ "maybe").2.2.2 (by decide) (by rfl) (by rfl)

/-- C10: for every accepted non-string input to the boolean converter (an
int that is not already a bool, a float, or the None value), convert returns
the input completely unchanged: the non-string path performs no coercion, so
the integer 1 is returned as the integer 1 and never becomes the boolean
true. -/
theorem claim_C10 (L : Langs) (name : Option String) (kind : String) :
    (∀ n : Int, pyConvert (boolC L) (vInt n) name kind = .ok (vInt n))
    ∧ (∀ f : PyFloat, pyConvert (boolC L) (vFloat f) name kind = .ok (vFloat f))
    ∧ pyConvert (boolC L) vNone name kind = .ok vNone := by
  refine ⟨fun n => ?_, fun f => ?_, ?_⟩ <;> rfl

/-- C8: every value-level failure raised inside `convert` is caught and
re-raised as a single error with the uniform message
`<Kind> '<name>' got value '<value>' (<runtime-type>) that cannot be
converted to <declared-type-name><: detail>.`; the name clause is omitted
when no name was given, the runtime-type parenthetical is omitted for string
inputs, the kind is capitalized unless already capitalized by the caller,
and the `: detail` suffix is present exactly when the caught failure carries
a message (otherwise the message ends with a period). -/
theorem claim_C8 (tn : String) (v : Value) (n : String) (kind : String)
    (e : Option PyErr) (m : String) :
    (handleError tn v (some n) kind e
      = some (capKind kind ++ " '" ++ n ++ "' got value '" ++ pyStr v ++ "'"
          ++ typSuffix v ++ " that " ++ ("cannot be converted to " ++ tn ++ endingOf e)))
    ∧ (handleError tn v Option.none kind e
      = some (capKind kind ++ " '" ++ pyStr v ++ "'" ++ typSuffix v
          ++ " " ++ ("cannot be converted to " ++ tn ++ endingOf e)))
    ∧ (isStrV v = true → typSuffix v = "")
    ∧ (isStrV v = false → typSuffix v = " (" ++ typeName v ++ ")")
    ∧ endingOf (some (some m)) = ": " ++ m
    ∧ endingOf (some Option.none) = "."
    ∧ endingOf Option.none = "."
    ∧ (pyIsLower kind = true → capKind kind = pyCapitalize kind)
    ∧ (pyIsLower kind = false → capKind kind = kind)
    ∧ (∀ (hks : ScalarHooks) (v' : Value) (nm : Option String) (kd : String) (err : PyErr),
        hks.noConvNeeded v' = false → hks.handlesValue v' = true →
        (match v' with
         | vStr s => hks.convertStr s
         | w => hks.nonStrConvert w) = .error err →
        runPipeline hks v' nm kd = .error (handleError hks.tn v' nm kd (some err)))
    ∧ (∀ (hks : ScalarHooks) (v' : Value) (nm : Option String) (kd : String),
        hks.noConvNeeded v' = false → hks.handlesValue v' = false →
        runPipeline hks v' nm kd = .error (handleError hks.tn v' nm kd Option.none)) := by
  refine ⟨rfl, rfl, ?_, ?_, rfl, rfl, rfl, ?_, ?_, ?_, ?_⟩
  · intro h
    simp [typSuffix, h]
  · intro h
    simp [typSuffix, h]
  · intro h
    simp [capKind, h]
  · intro h
    simp [capKind, h]
  · intro hks v' nm kd err h1 h2 h3
    unfold runPipeline
    rw [h1, h2]
    simpa using congrArg
      (fun r : Res =>
        match r with
        | .ok w => Except.ok w
        | .error e' => Except.error (handleError hks.tn v' nm kd (some e'))) h3
  · intro hks v' nm kd h1 h2
    unfold runPipeline
    rw [h1, h2]
    simp

/-- C8 witness: concrete instances of the format, covering both name forms,
the string/non-string parenthetical, kind capitalization, present and absent
detail, and the pipeline wrap of an inner failure. -/
theorem claim_C8_witness :
    handleError "integer" vNone (some "x") "argument" (some (some "boom"))
      = some "Argument 'x' got value 'None' (None) that cannot be converted to integer: boom"
    ∧ handleError "integer" (vStr "abc") Option.none "KW Arg" (some Option.none)
      = some "KW Arg 'abc' cannot be converted to integer."
    ∧ runPipeline intHooks (vStr "abc") (some "x") "Argument"
      = .error (some "Argument 'x' got value 'abc' that cannot be converted to integer.")
    ∧ runPipeline intHooks (vSet []) (some "x") "Argument"
      = .error (some "Argument 'x' got value 'set()' (set) that cannot be converted to integer.") := by
  refine ⟨?_, ?_, ?_, ?_⟩
  · exact ((claim_C8 "integer" vNone "x" "argument" (some (some "boom")) "boom").1).trans (by rfl)
  · exact ((claim_C8 "integer" (vStr "abc") "n" "KW Arg" (some Option.none) "m").2.1).trans (by rfl)
  · exact ((claim_C8 "integer" (vStr "abc") "n" "k" Option.none "m").2.2.2.2.2.2.2.2.2.1
      intHooks (vStr "abc") (some "x") "Argument" Option.none (by rfl) (by rfl) (by rfl)).trans
      (by rfl)
  · exact ((claim_C8 "integer" (vSet []) "n" "k" Option.none "m").2.2.2.2.2.2.2.2.2.2
      intHooks (vSet []) (some "x") "Argument" (by rfl) (by rfl)).trans (by rfl)

/-- C5: integer conversion on textual input strips space and underscore
digit separators, detects `0x`/`0o`/`0b` prefixes (optionally signed) to
select base 16/8/2, and for base-10 text that fails integer parsing retries
the text as an exact decimal fraction, returning the integer when the
fraction is a whole number and failing with a precision-loss error
otherwise; non-text numeric input is returned as an integer when it is
integral and fails with the same precision-loss error otherwise.  In
particular `"0x10"` converts to 16, `"1 000"` to 1000, the float 3.0 to 3,
and the float 3.5 fails with "would lose precision". -/
theorem claim_C5 :
    removeSeps "1_0 00" = "1000"
    ∧ (∀ v sgn body, (sgn = "" ∨ sgn = "-" ∨ sgn = "+") →
        pySplit (pyLower v) "0x" = [sgn, body] → getBase v = (sgn ++ body, 16))
    ∧ (∀ v, strContains (pyLower v) "0x" = false → strContains (pyLower v) "0o" = false →
        strContains (pyLower v) "0b" = false → getBase v = (pyLower v, 10))
    ∧ (∀ s n, parseIntBase (getBase (removeSeps s)).1 (getBase (removeSeps s)).2 = some n →
        intConvertStr s = .ok n)
    ∧ (∀ s nd, (getBase (removeSeps s)).2 = 10 →
        parseIntBase (getBase (removeSeps s)).1 10 = Option.none →
        decimalRatio (getBase (removeSeps s)).1 = some nd →
        intConvertStr s = if nd.2 ≠ 1 then .error losePrecision else .ok nd.1)
    ∧ (∀ s, (getBase (removeSeps s)).2 = 10 →
        parseIntBase (getBase (removeSeps s)).1 10 = Option.none →
        decimalRatio (getBase (removeSeps s)).1 = Option.none →
        intConvertStr s = .error Option.none)
    ∧ (∀ f : PyFloat, f.num % (f.den : Int) = 0 → ∀ nm kd,
        pyConvert intC (vFloat f) nm kd = .ok (vInt (f.num / (f.den : Int))))
    ∧ (∀ f : PyFloat, f.num % (f.den : Int) ≠ 0 → ∀ nm kd,
        pyConvert intC (vFloat f) nm kd
          = .error (handleError "integer" (vFloat f) nm kd (some losePrecision)))
    ∧ pyConvert intC (vStr "0x10") Option.none "Argument" = .ok (vInt 16)
    ∧ pyConvert intC (vStr "1 000") Option.none "Argument" = .ok (vInt 1000)
    ∧ pyConvert intC (vFloat ⟨3, 1⟩) Option.none "Argument" = .ok (vInt 3)
    ∧ pyConvert intC (vFloat ⟨7, 2⟩) Option.none "Argument" = .error (some
        "Argument '3.5' (float) cannot be converted to integer: Conversion would lose precision.") := by
  refine ⟨by rfl, ?_, ?_, ?_, ?_, ?_, ?_, ?_, by rfl, by rfl, by rfl, by rfl⟩
  · intro v sgn body hs hsplit
    have hcont : strContains (pyLower v) "0x" = true := by
      unfold strContains
      rw [hsplit]
      rfl
    rcases hs with h | h | h <;> subst h <;>
      (unfold getBase getBaseLoop; simp [hcont, hsplit, String.join])
  · intro v h1 h2 h3
    unfold getBase
    simp [getBaseLoop, h1, h2, h3]
  · intro s n h
    obtain ⟨a, b, hab⟩ : ∃ a b, getBase (removeSeps s) = (a, b) := ⟨_, _, rfl⟩
    rw [hab] at h
    simp only at h
    unfold intConvertStr
    simp [hab, h]
  · intro s nd hbase hint hdec
    obtain ⟨a, b, hab⟩ : ∃ a b, getBase (removeSeps s) = (a, b) := ⟨_, _, rfl⟩
    rw [hab] at hbase hint hdec
    simp only at hbase hint hdec
    subst hbase
    unfold intConvertStr
    by_cases hnd : nd.2 = 1 <;> simp [hab, hint, hdec, hnd]
  · intro s hbase hint hdec
    obtain ⟨a, b, hab⟩ : ∃ a b, getBase (removeSeps s) = (a, b) := ⟨_, _, rfl⟩
    rw [hab] at hbase hint hdec
    simp only at hbase hint hdec
    subst hbase
    unfold intConvertStr
    simp [hab, hint, hdec]
  · intro f h nm kd
    have h' : (f.den : Int) ∣ f.num := by
      rwa [Int.dvd_iff_emod_eq_zero]
    show intConvert (vFloat f) nm kd = _
    unfold intConvert runPipeline
    simp [intHooks, isinstAny, isinst, intNonStr, Except.map, isIntV, isStrV,
      isFloatV, h, h']
  · intro f h nm kd
    have h' : ¬((f.den : Int) ∣ f.num) := by
      rwa [Int.dvd_iff_emod_eq_zero]
    show intConvert (vFloat f) nm kd = _
    unfold intConvert runPipeline
    simp [intHooks, isinstAny, isinst, intNonStr, Except.map, losePrecision, isIntV,
      isStrV, isFloatV, h, h']

/-- C5 witness: the theorem applied at concrete inputs. -/
theorem claim_C5_witness :
    getBase "0x10" = ("10", 16)
    ∧ getBase "abc" = ("abc", 10)
    ∧ intConvertStr "12" = .ok 12
    ∧ intConvertStr "3.5" = .error losePrecision
    ∧ intConvertStr "abc" = .error Option.none
    ∧ pyConvert intC (vFloat ⟨10, 4⟩) Option.none "Argument"
        = .error (handleError "integer" (vFloat ⟨10, 4⟩) Option.none "Argument" (some losePrecision))
    ∧ pyConvert intC (vFloat ⟨12, 4⟩) Option.none "Argument" = .ok (vInt 3) := by
  refine ⟨?_, ?_, ?_, ?_, ?_, ?_, ?_⟩
  · exact claim_C5.2.1 "0x10" "" "10" (Or.inl rfl) (by rfl)
  · exact claim_C5.2.2.1 "abc" (by rfl) (by rfl) (by rfl)
  · exact claim_C5.2.2.2.1 "12" 12 (by rfl)
  · have h := claim_C5.2.2.2.2.1 "3.5" (7, 2) (by rfl) (by rfl) (by rfl)
    simpa using h
  · exact claim_C5.2.2.2.2.2.1 "abc" (by rfl) (by rfl) (by rfl)
  · exact claim_C5.2.2.2.2.2.2.2.1 ⟨10, 4⟩ (by decide) Option.none "Argument"
  · have h := claim_C5.2.2.2.2.2.2.1 ⟨12, 4⟩ (by decide) Option.none "Argument"
    simpa using h

/-- C1: `converter_for` resolves with first match winning, in this order:
absent primary type → unknown sentinel; exact entry in a supplied
custom-converter registry → custom adapter; exact identity match in the
built-in table → that converter; first registered built-in whose `handles`
predicate accepts the descriptor → that converter; otherwise the unknown
sentinel.  Hence custom converters win over built-ins and built-ins win over
structural fallback matches. -/
theorem claim_C1 (ti : TypeInfoD) (cr : List (PyKey × String)) :
    (ti.type = Option.none → converterFor ti cr = .unknownCls)
    ∧ (∀ t nm, ti.type = some t → getCustomInfo cr t = some nm →
        converterFor ti cr = .customCls nm)
    ∧ (∀ t e, ti.type = some t → getCustomInfo cr t = Option.none →
        registry.find? (fun r => r.1 == t) = some e →
        converterFor ti cr = e.2.1)
    ∧ (∀ t e, ti.type = some t → getCustomInfo cr t = Option.none →
        registry.find? (fun r => r.1 == t) = Option.none →
        registry.find? (fun r => r.2.2 ti) = some e →
        converterFor ti cr = e.2.1)
    ∧ (∀ t, ti.type = some t → getCustomInfo cr t = Option.none →
        registry.find? (fun r => r.1 == t) = Option.none →
        registry.find? (fun r => r.2.2 ti) = Option.none →
        converterFor ti cr = .unknownCls) := by
  refine ⟨?_, ?_, ?_, ?_, ?_⟩
  · intro h
    unfold converterFor
    rw [h]
  · intro t nm h hc
    have hne : cr.isEmpty = false := by
      cases cr with
      | nil => simp [getCustomInfo] at hc
      | cons a l => rfl
    unfold converterFor
    rw [h]
    simp [hne, hc]
  · intro t e h hc hfind
    unfold converterFor builtinFor
    rw [h]
    by_cases hcr : cr.isEmpty <;> simp [hcr, hc, hfind]
  · intro t e h hc hfind hh
    unfold converterFor builtinFor
    rw [h]
    by_cases hcr : cr.isEmpty <;> simp [hcr, hc, hfind, hh]
  · intro t h hc hfind hh
    unfold converterFor builtinFor
    rw [h]
    by_cases hcr : cr.isEmpty <;> simp [hcr, hc, hfind, hh]

/-- C1 witness: a custom entry for `bool` beats the built-in boolean
converter; without it the exact match wins; a `list` subclass that has no
exact entry falls back to the first structural match (the list converter,
not the set converter, although both abstract bases could match a dict-like
type); an absent or unrecognized type yields the sentinel. -/
theorem claim_C1_witness :
    converterFor ⟨some boolKey, false, false⟩ [(boolKey, "MyBool")] = .customCls "MyBool"
    ∧ converterFor ⟨some boolKey, false, false⟩ [] = .boolCls
    ∧ converterFor ⟨some (.cls "MyList" ["MyList", "list", "Sequence", "object"]), false, false⟩ []
        = .listCls
    ∧ converterFor ⟨Option.none, false, false⟩ [] = .unknownCls
    ∧ converterFor ⟨some (.cls "Weird" ["Weird", "object"]), false, false⟩ [] = .unknownCls := by
  refine ⟨?_, ?_, ?_, ?_, ?_⟩
  · exact (claim_C1 ⟨some boolKey, false, false⟩ [(boolKey, "MyBool")]).2.1
      boolKey "MyBool" rfl (by rfl)
  · exact (claim_C1 ⟨some boolKey, false, false⟩ []).2.2.1
      boolKey (boolKey, .boolCls, defaultHandles ["bool"]) rfl (by rfl) (by rfl)
  · exact (claim_C1 ⟨some (.cls "MyList" ["MyList", "list", "Sequence", "object"]), false, false⟩ []).2.2.2.1
      (.cls "MyList" ["MyList", "list", "Sequence", "object"])
      (listKey, .listCls, defaultHandles ["list", "Sequence"]) rfl (by rfl) (by rfl) (by rfl)
  · exact (claim_C1 ⟨Option.none, false, false⟩ []).1 rfl
  · exact (claim_C1 ⟨some (.cls "Weird" ["Weird", "object"]), false, false⟩ []).2.2.2.2
      (.cls "Weird" ["Weird", "object"]) rfl (by rfl) (by rfl) (by rfl)

/-- C4: enum conversion first tries the exact declared member name; on a
miss it falls back to case- and separator-insensitive name matching treating
`_` and `-` as equivalent/ignorable; exactly one normalized hit returns that
member, more than one raises a hard error listing all matching member names,
and zero hits on an int-backed enum type falls back once more to lookup by
integer value; the final no-match failure lists all available members, with
their values for int-backed enums. -/
theorem claim_C4 (e : EnumInfo) (s : String) :
    (∀ p, e.members.find? (fun q => q.1 == s) = some p →
      enumConvertStr e s = .ok (vEnum e.name p.1 p.2))
    ∧ (e.members.find? (fun q => q.1 == s) = Option.none →
      enumConvertStr e s = enumNormalized e s)
    ∧ (∀ m, (sortStr (e.members.map fun p => p.1)).filter (fun m' => eqNorm m' s) = [m] →
      enumNormalized e s = .ok (vEnum e.name m (enumLookupVal e m)))
    ∧ (∀ m1 m2 ms,
      (sortStr (e.members.map fun p => p.1)).filter (fun m' => eqNorm m' s) = m1 :: m2 :: ms →
      enumNormalized e s = .error (some (e.name ++ " has multiple members matching '" ++ s
        ++ "'. Available: " ++ seq2str "'" " and " (m1 :: m2 :: ms))))
    ∧ ((sortStr (e.members.map fun p => p.1)).filter (fun m' => eqNorm m' s) = [] →
      e.intBacked = true → ∀ n p, parsePyInt s = some n →
      e.members.find? (fun q => q.2 == n) = some p →
      enumNormalized e s = .ok (vEnum e.name p.1 n))
    ∧ ((sortStr (e.members.map fun p => p.1)).filter (fun m' => eqNorm m' s) = [] →
      e.intBacked = true →
      (parsePyInt s = Option.none
        ∨ ∃ n, parsePyInt s = some n ∧ e.members.find? (fun q => q.2 == n) = Option.none) →
      enumNormalized e s = .error (some (e.name ++ " does not have member '" ++ s
        ++ "'. Available: " ++ seq2str "'" " and "
          ((sortStr (e.members.map fun p => p.1)).map
            fun m => m ++ " (" ++ toString (enumLookupVal e m) ++ ")"))))
    ∧ ((sortStr (e.members.map fun p => p.1)).filter (fun m' => eqNorm m' s) = [] →
      e.intBacked = false →
      enumNormalized e s = .error (some (e.name ++ " does not have member '" ++ s
        ++ "'. Available: " ++ seq2str "'" " and " (sortStr (e.members.map fun p => p.1)))))
    ∧ (∀ w, enumConvertStr e s = .ok w → ∀ nm kd,
      pyConvert (enumC e) (vStr s) nm kd = .ok w) := by
  refine ⟨?_, ?_, ?_, ?_, ?_, ?_, ?_, ?_⟩
  · intro p h
    unfold enumConvertStr
    rw [h]
  · intro h
    unfold enumConvertStr
    rw [h]
  · intro m h
    unfold enumNormalized
    simp only [h]
  · intro m1 m2 ms h
    unfold enumNormalized
    simp only [h]
  · intro h hib n p hn hp
    unfold enumNormalized
    simp only [h, hib, if_true, hn, hp]
    unfold enumFindByInt
    rw [hp]
  · intro h hib hor
    unfold enumNormalized
    simp only [h, hib, if_true]
    rcases hor with hn | ⟨n, hn, hp⟩
    · simp only [hn]
    · simp only [hn]
      unfold enumFindByInt
      simp only [hp]
  · intro h hib
    unfold enumNormalized
    simp only [h, hib, Bool.false_eq_true, if_false]
  · intro w hw nm kd
    show enumConvert e (vStr s) nm kd = .ok w
    unfold enumConvert runPipeline
    cases hib : e.intBacked <;>
      simp [enumHooks, isinst, isinstAny, isStrV, hib, hw]

/-- C4 witness: `Color(RED, GREEN, BLUE)`: `"RED"` hits exactly, `"red"`
matches case-insensitively, `"x"` fails listing the members; an enum with
members `A_B` and `AB` is ambiguous for `"ab"`; an int-backed enum falls
back to value lookup for `"2"` and lists values in its final error. -/
theorem claim_C4_witness :
    enumConvertStr ⟨"Color", [("RED", 1), ("GREEN", 2), ("BLUE", 3)], false⟩ "RED"
      = .ok (vEnum "Color" "RED" 1)
    ∧ enumConvertStr ⟨"Color", [("RED", 1), ("GREEN", 2), ("BLUE", 3)], false⟩ "red"
      = .ok (vEnum "Color" "RED" 1)
    ∧ enumConvertStr ⟨"Color", [("RED", 1), ("GREEN", 2), ("BLUE", 3)], false⟩ "x"
      = .error (some "Color does not have member 'x'. Available: 'BLUE', 'GREEN' and 'RED'")
    ∧ enumNormalized ⟨"Amb", [("A_B", 1), ("AB", 2)], false⟩ "ab"
      = .error (some "Amb has multiple members matching 'ab'. Available: 'AB' and 'A_B'")
    ∧ enumNormalized ⟨"Num", [("ONE", 1), ("TWO", 2)], true⟩ "2"
      = .ok (vEnum "Num" "TWO" 2)
    ∧ enumNormalized ⟨"Num", [("ONE", 1), ("TWO", 2)], true⟩ "7"
      = .error (some "Num does not have member '7'. Available: 'ONE (1)' and 'TWO (2)'")
    ∧ pyConvert (enumC ⟨"Color", [("RED", 1), ("GREEN", 2), ("BLUE", 3)], false⟩)
        (vStr "red") Option.none "Argument" = .ok (vEnum "Color" "RED" 1) := by
  refine ⟨?_, ?_, ?_, ?_, ?_, ?_, ?_⟩
  · exact (claim_C4 _ "RED").1 ("RED", 1) (by rfl)
  · exact ((claim_C4 _ "red").2.1 (by rfl)).trans ((claim_C4 _ "red").2.2.1 "RED" (by rfl))
  · exact ((claim_C4 _ "x").2.1 (by rfl)).trans
      ((claim_C4 _ "x").2.2.2.2.2.2.1 (by rfl) (by rfl))
  · exact (claim_C4 _ "ab").2.2.2.1 "AB" "A_B" [] (by rfl)
  · exact (claim_C4 _ "2").2.2.2.2.1 (by rfl) (by rfl) 2 ("TWO", 2) (by rfl) (by rfl)
  · exact (claim_C4 _ "7").2.2.2.2.2.1 (by rfl) (by rfl) (Or.inr ⟨7, by rfl, by rfl⟩)
  · exact (claim_C4 _ "red").2.2.2.2.2.2.2 (vEnum "Color" "RED" 1)
      (((claim_C4 _ "red").2.1 (by rfl)).trans ((claim_C4 _ "red").2.2.1 "RED" (by rfl)))
      Option.none "Argument"

/-- An exact (value and runtime type) literal match anywhere in the tail
returns that constant, whatever was accumulated before. -/
theorem literal_exact_aux (L : Langs) (v : Value) :
    ∀ (pre : List Value) (l : Value) (post acc : List Value),
      pyEq v l = true → typeTag v = typeTag l →
      (∀ l' ∈ pre, ¬(pyEq v l' = true ∧ typeTag v = typeTag l')) →
      literalLoop L (pre ++ l :: post) v acc = .ok l := by
  intro pre
  induction pre with
  | nil =>
    intro l post acc h1 h2 _
    simp [literalLoop, h1, h2]
  | cons p pre' ih =>
    intro l post acc h1 h2 hpre
    have hp := hpre p (by simp)
    have hcond : ¬(pyEq v p && typeTag v == typeTag p) = true := by
      simp only [Bool.and_eq_true, beq_iff_eq]
      exact fun hc => hp ⟨hc.1, hc.2⟩
    show literalLoop L (p :: (pre' ++ l :: post)) v acc = .ok l
    unfold literalLoop
    rw [if_neg hcond]
    have hrest : ∀ l' ∈ pre', ¬(pyEq v l' = true ∧ typeTag v = typeTag l') :=
      fun l' hl' => hpre l' (by simp [hl'])
    cases hconv : litConvertInput L p v with
    | ok conv => exact ih l post _ h1 h2 hrest
    | error e => exact ih l post _ h1 h2 hrest

/-- With no exact match anywhere, the loop returns according to the
accumulated conversion matches: one match wins, several are ambiguous, none
fails. -/
theorem literal_collect_aux (L : Langs) (v : Value) :
    ∀ (lits acc : List Value),
      (∀ l ∈ lits, ¬(pyEq v l = true ∧ typeTag v = typeTag l)) →
      literalLoop L lits v acc =
        (match acc ++ lits.filter (fun l => litMatchB L l v) with
         | [m] => .ok m
         | [] => .error Option.none
         | _ => .error (some "No unique match found.")) := by
  intro lits
  induction lits with
  | nil =>
    intro acc _
    simp [literalLoop]
  | cons l ls ih =>
    intro acc h
    have hl := h l (by simp)
    have hcond : ¬(pyEq v l && typeTag v == typeTag l) = true := by
      simp only [Bool.and_eq_true, beq_iff_eq]
      exact fun hc => hl ⟨hc.1, hc.2⟩
    have hrest : ∀ l' ∈ ls, ¬(pyEq v l' = true ∧ typeTag v = typeTag l') :=
      fun l' hl' => h l' (by simp [hl'])
    show literalLoop L (l :: ls) v acc = _
    unfold literalLoop
    rw [if_neg hcond]
    cases hconv : litConvertInput L l v with
    | ok conv =>
      have hm : litMatchB L l v = litMatched l conv := by
        unfold litMatchB
        rw [hconv]
      by_cases hmatch : litMatched l conv = true
      · simp only [hmatch, if_true]
        rw [ih _ hrest]
        simp only [List.filter_cons, hm, hmatch, if_true]
        rw [List.append_cons]
        simp
      · have hm2 : litMatched l conv = false := by
          simpa using hmatch
        simp only [hm2, Bool.false_eq_true, if_false]
        rw [ih _ hrest]
        simp only [List.filter_cons, hm, hm2, Bool.false_eq_true, if_false]
    | error e =>
      rw [ih _ hrest]
      have hm : litMatchB L l v = false := by
        unfold litMatchB
        rw [hconv]
      simp only [List.filter_cons, hm, Bool.false_eq_true, if_false]

/-- C3: for the literal matcher, an input matches a declared constant
outright only when it equals the constant in both value and exact runtime
type (so the integer 1 does not match a literal `True` outright, and vice
versa); otherwise each constant's own-type conversion of the input is
attempted and counted as a match only if the converted value equals the
constant case/separator-insensitively for string constants or by direct
equality for others; exactly one match is returned, more than one
simultaneous match raises the hard ambiguity error, and zero matches fails. -/
theorem claim_C3 (L : Langs) (lits : List Value) (v : Value) :
    (∀ pre l post, lits = pre ++ l :: post →
      pyEq v l = true → typeTag v = typeTag l →
      (∀ l' ∈ pre, ¬(pyEq v l' = true ∧ typeTag v = typeTag l')) →
      literalLoop L lits v [] = .ok l)
    ∧ ((∀ l ∈ lits, ¬(pyEq v l = true ∧ typeTag v = typeTag l)) →
      literalLoop L lits v [] =
        (match lits.filter (fun l => litMatchB L l v) with
         | [m] => .ok m
         | [] => .error Option.none
         | _ => .error (some "No unique match found.")))
    ∧ (∀ lit conv, litMatched lit conv =
        ((match lit, conv with
          | vStr le, vStr ce => eqNorm ce le
          | _, _ => false) || pyEq conv lit))
    ∧ (pyEq (vInt 1) (vBool true) = true ∧ typeTag (vInt 1) ≠ typeTag (vBool true))
    ∧ (pyEq (vBool true) (vInt 1) = true ∧ typeTag (vBool true) ≠ typeTag (vInt 1))
    ∧ (∀ nm kd w, literalNoConv lits v = false → literalLoop L lits v [] = .ok w →
      pyConvert (literalC L lits) v nm kd = .ok w) := by
  refine ⟨?_, ?_, fun lit conv => rfl, by decide, by decide, ?_⟩
  · intro pre l post hsplit h1 h2 hpre
    rw [hsplit]
    exact literal_exact_aux L v pre l post [] h1 h2 hpre
  · intro h
    simpa using literal_collect_aux L v lits [] h
  · intro nm kd w h1 h2
    show literalConvert L lits v nm kd = .ok w
    unfold literalConvert runPipeline
    cases v <;> simp [literalHooks, h1, h2]

/-- C3 witness: `Literal["on", "off"]` matches `"ON"` case-insensitively to
`"on"`; the integer 1 converts against `Literal[True]` only through the
boolean branch rather than outright; `Literal["a_b", "a-b"]` is ambiguous
for input `"ab"`; `Literal["on"]` fails for `"x"`; and the whole pipeline
returns the matched constant. -/
theorem claim_C3_witness :
    literalLoop defaultLangsW [vStr "on", vStr "off"] (vStr "ON") [] = .ok (vStr "on")
    ∧ literalLoop defaultLangsW [vStr "a_b", vStr "a-b"] (vStr "ab") []
      = .error (some "No unique match found.")
    ∧ literalLoop defaultLangsW [vStr "on"] (vStr "x") [] = .error Option.none
    ∧ literalLoop defaultLangsW [vInt 7] (vStr "abc") [] = .error Option.none
    ∧ pyConvert (literalC defaultLangsW [vStr "on", vStr "off"]) (vStr "ON")
        Option.none "Argument" = .ok (vStr "on") := by
  refine ⟨?_, ?_, ?_, ?_, ?_⟩
  · exact (claim_C3 defaultLangsW [vStr "on", vStr "off"] (vStr "ON")).2.1 (by decide)
  · exact (claim_C3 defaultLangsW [vStr "a_b", vStr "a-b"] (vStr "ab")).2.1 (by decide)
  · exact (claim_C3 defaultLangsW [vStr "on"] (vStr "x")).2.1 (by decide)
  · exact (claim_C3 defaultLangsW [vInt 7] (vStr "abc")).2.1 (by decide)
  · exact (claim_C3 defaultLangsW [vStr "on", vStr "off"] (vStr "ON")).2.2.2.2.2
      Option.none "Argument" (vStr "on") (by rfl)
      ((claim_C3 defaultLangsW [vStr "on", vStr "off"] (vStr "ON")).2.1 (by decide))

/-- A truthy branch that succeeds, after truthy branches that all fail,
determines the union loop's result, whatever the pass-through flag. -/
theorem union_first_aux (v : Value) :
    ∀ (pre : List Conv) (c : Conv) (post : List Conv) (u : Bool) (w : Value),
      isTruthy c = true →
      (∀ c' ∈ pre, isTruthy c' = true →
        ∃ e, pyConvert c' v Option.none "Argument" = .error e) →
      pyConvert c v Option.none "Argument" = .ok w →
      unionTry (pre ++ c :: post) v u = .ok w := by
  intro pre
  induction pre with
  | nil =>
    intro c post u w ht _ hok
    simp only [pyConvert] at hok
    show unionLoop ((isTruthy c, pyConvertF c) :: pyConvertBranches post) v u = .ok w
    unfold unionLoop
    rw [ht, if_pos rfl, hok]
  | cons p pre' ih =>
    intro c post u w ht hpre hok
    have hrest : ∀ c' ∈ pre', isTruthy c' = true →
        ∃ e, pyConvert c' v Option.none "Argument" = .error e :=
      fun c' hc' => hpre c' (by simp [hc'])
    show unionLoop ((isTruthy p, pyConvertF p) :: pyConvertBranches (pre' ++ c :: post)) v u
      = .ok w
    unfold unionLoop
    cases hT : isTruthy p with
    | true =>
      obtain ⟨e, he⟩ := hpre p (by simp) hT
      simp only [pyConvert] at he
      rw [if_pos rfl, he]
      exact ih c post u w ht hrest hok
    | false =>
      rw [if_neg (by simp)]
      exact ih c post true w ht hrest hok

/-- When every truthy branch fails, the loop returns the value when the
pass-through flag is or becomes set, and a bare error otherwise. -/
theorem union_fail_aux (v : Value) :
    ∀ (cs : List Conv) (u : Bool),
      (∀ c ∈ cs, isTruthy c = true →
        ∃ e, pyConvert c v Option.none "Argument" = .error e) →
      unionTry cs v u =
        (if u || cs.any (fun c => !isTruthy c) then .ok v else .error Option.none) := by
  intro cs
  induction cs with
  | nil =>
    intro u _
    show unionLoop [] v u = _
    unfold unionLoop
    simp
  | cons c rest ih =>
    intro u h
    have hrest : ∀ c' ∈ rest, isTruthy c' = true →
        ∃ e, pyConvert c' v Option.none "Argument" = .error e :=
      fun c' hc' => h c' (by simp [hc'])
    show unionLoop ((isTruthy c, pyConvertF c) :: pyConvertBranches rest) v u = _
    unfold unionLoop
    cases hT : isTruthy c with
    | true =>
      obtain ⟨e, he⟩ := h c (by simp) hT
      simp only [pyConvert] at he
      have hih := ih u hrest
      simp only [unionTry] at hih
      rw [if_pos rfl, he]
      simp only [List.any_cons, hT]
      rw [hih]
      simp
    | false =>
      rw [if_neg (by simp)]
      have hih := ih true hrest
      simp only [unionTry] at hih
      rw [hih]
      simp [hT, List.any_cons]

/-- C2: the union converter's convert tries each nested type's converter in
declared order and returns the first successful conversion; if every
concrete (truthy) nested converter fails but at least one nested slot is the
unresolvable unknown-type converter, the original value is returned
unchanged instead of failing; if all concrete branches fail and no
unresolvable slot exists, conversion fails. -/
theorem claim_C2 (cs : List Conv) (v : Value) :
    (∀ pre c post w, cs = pre ++ c :: post → isTruthy c = true →
      (∀ c' ∈ pre, isTruthy c' = true →
        ∃ e, pyConvert c' v Option.none "Argument" = .error e) →
      pyConvert c v Option.none "Argument" = .ok w →
      unionTry cs v false = .ok w)
    ∧ ((∀ c ∈ cs, isTruthy c = true →
        ∃ e, pyConvert c v Option.none "Argument" = .error e) →
      ((∃ c ∈ cs, isTruthy c = false) → unionTry cs v false = .ok v)
      ∧ ((∀ c ∈ cs, isTruthy c = true) → unionTry cs v false = .error Option.none))
    ∧ (∀ nm kd w, noConv (unionC cs) v = false → unionTry cs v false = .ok w →
      pyConvert (unionC cs) v nm kd = .ok w)
    ∧ (∀ nm kd e, noConv (unionC cs) v = false → unionTry cs v false = .error e →
      pyConvert (unionC cs) v nm kd
        = .error (handleError (typeNameOf (unionC cs)) v nm kd (some e))) := by
  refine ⟨?_, ?_, ?_, ?_⟩
  · intro pre c post w hsplit ht hpre hok
    rw [hsplit]
    exact union_first_aux v pre c post false w ht hpre hok
  · intro h
    constructor
    · intro ⟨c, hc, hfalsy⟩
      rw [union_fail_aux v cs false h]
      have : cs.any (fun c => !isTruthy c) = true := by
        simp only [List.any_eq_true]
        exact ⟨c, hc, by simp [hfalsy]⟩
      simp [this]
    · intro hall
      rw [union_fail_aux v cs false h]
      have : cs.any (fun c => !isTruthy c) = false := by
        simp only [List.any_eq_false]
        intro c hc
        simp [hall c hc]
      simp [this]
  · intro nm kd w h1 h2
    simp only [noConv] at h1
    simp only [unionTry] at h2
    show pyConvertF (unionC cs) v nm kd = .ok w
    unfold pyConvertF
    rw [h1]
    simp [h2]
  · intro nm kd e h1 h2
    simp only [noConv] at h1
    simp only [unionTry] at h2
    show pyConvertF (unionC cs) v nm kd = _
    unfold pyConvertF
    rw [h1]
    simp [h2]

/-- C2 witness: `Union[int, None]` converts `"5"` via the first branch after
no earlier branch; with every concrete branch failing, a union containing an
unknown slot passes `"abc"` through while `Union[int, None]` fails. -/
theorem claim_C2_witness :
    unionTry [intC, noneC] (vStr "5") false = .ok (vInt 5)
    ∧ unionTry [intC, noneC] (vStr "abc") false = .error Option.none
    ∧ unionTry [intC, unknownC "X"] (vStr "abc") false = .ok (vStr "abc")
    ∧ pyConvert (unionC [intC, noneC]) (vStr "abc") (some "x") "Argument"
      = .error (handleError "integer or None" (vStr "abc") (some "x") "Argument"
          (some Option.none)) := by
  refine ⟨?_, ?_, ?_, ?_⟩
  · exact (claim_C2 [intC, noneC] (vStr "5")).1 [] intC [noneC] (vInt 5) rfl rfl
      (by intro c' hc'; simp at hc') (by rfl)
  · exact ((claim_C2 [intC, noneC] (vStr "abc")).2.1
      (by
        intro c hc _
        simp only [List.mem_cons, List.not_mem_nil, or_false] at hc
        rcases hc with h | h
        · subst h; exact ⟨_, by rfl⟩
        · subst h; exact ⟨_, by rfl⟩)).2
      (by decide)
  · exact ((claim_C2 [intC, unknownC "X"] (vStr "abc")).2.1
      (by
        intro c hc ht
        simp only [List.mem_cons, List.not_mem_nil, or_false] at hc
        rcases hc with h | h
        · subst h; exact ⟨_, by rfl⟩
        · subst h; simp [isTruthy] at ht)).1
      ⟨unknownC "X", by simp, by rfl⟩
  · exact (claim_C2 [intC, noneC] (vStr "abc")).2.2.2 (some "x") "Argument" Option.none
      (by rfl)
      (((claim_C2 [intC, noneC] (vStr "abc")).2.1
        (by
        intro c hc _
        simp only [List.mem_cons, List.not_mem_nil, or_false] at hc
        rcases hc with h | h
        · subst h; exact ⟨_, by rfl⟩
        · subst h; exact ⟨_, by rfl⟩)).2
        (by decide))

/-- The bound converts of a nested list, position-wise. -/
theorem pyConvertListC_length (cs : List Conv) :
    (pyConvertListC cs).length = cs.length := by
  induction cs with
  | nil => rfl
  | cons c rest ih => simp [pyConvertListC, ih]

/-- A successful fixed-arity zip converted every position with its own
converter, in order. -/
theorem convZip_ok_aux (cs : List Conv) :
    ∀ (i : Nat) (xs : List Value) (ws : List Value), convZip cs i xs = .ok ws →
      ∀ j (hj : j < cs.length) (hx : j < xs.length) (hw : j < ws.length),
        pyConvert (cs.get ⟨j, hj⟩) (xs.get ⟨j, hx⟩) (some (toString (i + j))) "Item"
          = .ok (ws.get ⟨j, hw⟩) := by
  induction cs with
  | nil =>
    intro i xs ws _ j hj
    exact absurd hj (by simp)
  | cons c rest ih =>
    intro i xs ws hok j hj hx hw
    cases xs with
    | nil => exact absurd hx (by simp)
    | cons x xs' =>
      have hok' : (match pyConvertF c x (some (toString i)) "Item" with
          | .error e => .error e
          | .ok w =>
            (match zipLoop (pyConvertListC rest) (i + 1) xs' with
             | .error e => .error e
             | .ok ws => .ok (w :: ws))) = (.ok ws : Except PyErr (List Value)) := hok
      cases hc : pyConvertF c x (some (toString i)) "Item" with
      | error e => rw [hc] at hok'; exact absurd hok' (by simp)
      | ok w =>
        rw [hc] at hok'
        cases hrest : zipLoop (pyConvertListC rest) (i + 1) xs' with
        | error e => rw [hrest] at hok'; exact absurd hok' (by simp)
        | ok ws' =>
          rw [hrest] at hok'
          have hws : ws = w :: ws' := by
            have := hok'
            simp at this
            exact this.symm
          subst hws
          cases j with
          | zero =>
            simpa [pyConvert] using hc
          | succ j' =>
            have := ih (i + 1) xs' ws' hrest j' (by simpa using hj) (by simpa using hx)
              (by simpa using hw)
            have harith : i + 1 + j' = i + (j' + 1) := by omega
            rw [harith] at this
            simpa using this

/-- C6: for a fixed-arity tuple converter with exactly N positional
converters (no trailing ellipsis), conversion succeeds only on inputs with
exactly N items, each position converted by its own nested converter in
order; any other length fails naming the expected and actual counts, e.g. a
3-element value against a 2-slot fixed schema fails citing
"Expected 2 items, got 3.". -/
theorem claim_C6 (cs : List Conv) (xs : List Value) :
    (cs ≠ [] → xs.length ≠ cs.length →
      tupleItems cs false xs = .error (tupleLengthError cs.length xs.length))
    ∧ tupleLengthError 2 3 = some "Expected 2 items, got 3."
    ∧ (cs ≠ [] → xs.length = cs.length →
      tupleItems cs false xs =
        (match convZip cs 0 xs with
         | .error e => .error e
         | .ok ws => .ok (vTuple ws)))
    ∧ (∀ ws, convZip cs 0 xs = .ok ws →
      ∀ j (hj : j < cs.length) (hx : j < xs.length) (hw : j < ws.length),
        pyConvert (cs.get ⟨j, hj⟩) (xs.get ⟨j, hx⟩) (some (toString j)) "Item"
          = .ok (ws.get ⟨j, hw⟩))
    ∧ pyConvert (tupleC "tuple[integer, integer]" [intC, intC] false)
        (vTuple [vInt 1, vInt 2, vInt 3]) Option.none "Argument"
      = .error (some ("Argument '(1, 2, 3)' (tuple) cannot be converted to "
          ++ "tuple[integer, integer]: Expected 2 items, got 3.")) := by
  refine ⟨?_, by rfl, ?_, ?_, by rfl⟩
  · intro hne hlen
    have hfs : (pyConvertListC cs).length = cs.length := pyConvertListC_length cs
    have hfsne : (pyConvertListC cs).isEmpty = false := by
      cases cs with
      | nil => exact absurd rfl hne
      | cons a l => rfl
    show tupleItemsF (pyConvertListC cs) false xs = _
    unfold tupleItemsF
    rw [hfsne]
    simp only [Bool.false_eq_true, if_false]
    rw [hfs]
    have : (xs.length != cs.length) = true := by
      simpa using hlen
    rw [this]
    simp
  · intro hne hlen
    have hfs : (pyConvertListC cs).length = cs.length := pyConvertListC_length cs
    have hfsne : (pyConvertListC cs).isEmpty = false := by
      cases cs with
      | nil => exact absurd rfl hne
      | cons a l => rfl
    show tupleItemsF (pyConvertListC cs) false xs = _
    unfold tupleItemsF
    rw [hfsne]
    simp only [Bool.false_eq_true, if_false]
    rw [hfs]
    have : (xs.length != cs.length) = false := by
      simpa using hlen
    rw [this]
    simp only [Bool.false_eq_true, if_false]
    rfl
  · intro ws hok j hj hx hw
    have := convZip_ok_aux cs 0 xs ws hok j hj hx hw
    simpa using this

/-- C6 witness: the theorem applied at the 2-slot schema with 3- and
2-element inputs. -/
theorem claim_C6_witness :
    tupleItems [intC, intC] false [vInt 1, vInt 2, vInt 3]
      = .error (some "Expected 2 items, got 3.")
    ∧ tupleItems [intC, strC] false [vStr "1", vInt 2]
      = (match convZip [intC, strC] 0 [vStr "1", vInt 2] with
         | .error e => .error e
         | .ok ws => .ok (vTuple ws)) := by
  refine ⟨?_, ?_⟩
  · exact ((claim_C6 [intC, intC] [vInt 1, vInt 2, vInt 3]).1 (by simp) (by decide))
  · exact ((claim_C6 [intC, strC] [vStr "1", vInt 2]).2.2.1 (by simp) (by decide))

/-- A successful `ListConverter` item loop converted every element: the
output has one converted value per input element. -/
theorem itemsLoop_ok_length (f : ConvFun) :
    ∀ (i : Nat) (xs ws : List Value), itemsLoop f i xs = .ok ws →
      ws.length = xs.length := by
  intro i xs
  induction xs generalizing i with
  | nil =>
    intro ws h
    have : ws = [] := by simpa [itemsLoop] using h.symm
    simp [this]
  | cons x xs ih =>
    intro ws h
    cases hc : f x (some (toString i)) "Item" with
    | error e => rw [itemsLoop, hc] at h; exact absurd h (by simp)
    | ok w =>
      rw [itemsLoop, hc] at h
      cases hrest : itemsLoop f (i + 1) xs with
      | error e => rw [hrest] at h; exact absurd h (by simp)
      | ok ws' =>
        rw [hrest] at h
        have hws : ws = w :: ws' := by
          have := h
          simp at this
          exact this.symm
        subst hws
        simp [ih (i + 1) ws' hrest]

/-- When every element before position `pre.length` converts and the element
there fails, the `ListConverter` item loop fails with exactly that error. -/
theorem itemsLoop_append_err (f : ConvFun) :
    ∀ (pre : List Value) (i : Nat) (x : Value) (post : List Value) (e : PyErr),
      (∀ j (hj : j < pre.length),
        ∃ w, f (pre.get ⟨j, hj⟩) (some (toString (i + j))) "Item" = .ok w) →
      f x (some (toString (i + pre.length))) "Item" = .error e →
      itemsLoop f i (pre ++ x :: post) = .error e := by
  intro pre
  induction pre with
  | nil =>
    intro i x post e _ hx
    simp only [List.length_nil, Nat.add_zero] at hx
    simp [itemsLoop, hx]
  | cons a pre ih =>
    intro i x post e hpre hx
    obtain ⟨w, hw⟩ := hpre 0 (by simp)
    have hw' : f a (some (toString i)) "Item" = .ok w := by simpa using hw
    have hpre' : ∀ j (hj : j < pre.length),
        ∃ w, f (pre.get ⟨j, hj⟩) (some (toString (i + 1 + j))) "Item" = .ok w := by
      intro j hj
      have h2 : j + 1 < (a :: pre).length := by
        simp only [List.length_cons]
        omega
      obtain ⟨w2, hw2⟩ := hpre (j + 1) h2
      refine ⟨w2, ?_⟩
      have harith : i + (j + 1) = i + 1 + j := by omega
      rw [harith] at hw2
      simpa using hw2
    have hx' : f x (some (toString (i + 1 + pre.length))) "Item" = .error e := by
      have harith : i + (a :: pre).length = i + 1 + pre.length := by
        simp only [List.length_cons]
        omega
      rw [harith] at hx
      exact hx
    simp [itemsLoop, hw', ih (i + 1) x post e hpre' hx']

/-- When every element before the failing one converts, the `SetConverter`
item loop fails with the failing element's error. -/
theorem itemsLoopNN_append_err (f : ConvFun) :
    ∀ (pre : List Value) (x : Value) (post : List Value) (e : PyErr),
      (∀ y ∈ pre, ∃ w, f y Option.none "Item" = .ok w) →
      f x Option.none "Item" = .error e →
      itemsLoopNN f (pre ++ x :: post) = .error e := by
  intro pre
  induction pre with
  | nil =>
    intro x post e _ hx
    simp [itemsLoopNN, hx]
  | cons a pre ih =>
    intro x post e hpre hx
    obtain ⟨w, hw⟩ := hpre a (by simp)
    have hpre' : ∀ y ∈ pre, ∃ w, f y Option.none "Item" = .ok w := by
      intro y hy
      exact hpre y (List.mem_cons_of_mem _ hy)
    simp [itemsLoopNN, hw, ih x post e hpre' hx]

/-- When every earlier position converts under its own converter and position
`pre.length` fails, the fixed-arity tuple loop fails with that error. -/
theorem zipLoop_append_err :
    ∀ (fs1 : List ConvFun) (f : ConvFun) (fs2 : List ConvFun) (pre : List Value)
      (i : Nat) (x : Value) (post : List Value) (e : PyErr),
      pre.length = fs1.length →
      (∀ j (hj : j < fs1.length) (hx : j < pre.length),
        ∃ w, (fs1.get ⟨j, hj⟩) (pre.get ⟨j, hx⟩) (some (toString (i + j))) "Item" = .ok w) →
      f x (some (toString (i + pre.length))) "Item" = .error e →
      zipLoop (fs1 ++ f :: fs2) i (pre ++ x :: post) = .error e := by
  intro fs1
  induction fs1 with
  | nil =>
    intro f fs2 pre i x post e hlen _ hx
    have hpre : pre = [] := List.length_eq_zero.mp (by simpa using hlen)
    subst hpre
    simp only [List.length_nil, Nat.add_zero] at hx
    simp [zipLoop, hx]
  | cons g fs1 ih =>
    intro f fs2 pre i x post e hlen hpre hx
    cases pre with
    | nil => simp at hlen
    | cons b pre' =>
      have hlen' : pre'.length = fs1.length := by simpa using hlen
      obtain ⟨w, hw⟩ := hpre 0 (by simp) (by simp)
      have hw' : g b (some (toString i)) "Item" = .ok w := by simpa using hw
      have hpre' : ∀ j (hj : j < fs1.length) (hx2 : j < pre'.length),
          ∃ w, (fs1.get ⟨j, hj⟩) (pre'.get ⟨j, hx2⟩) (some (toString (i + 1 + j))) "Item"
            = .ok w := by
        intro j hj hx2
        have h1 : j + 1 < (g :: fs1).length := by
          simp only [List.length_cons]
          omega
        have h2 : j + 1 < (b :: pre').length := by
          simp only [List.length_cons]
          omega
        obtain ⟨w2, hw2⟩ := hpre (j + 1) h1 h2
        refine ⟨w2, ?_⟩
        have harith : i + (j + 1) = i + 1 + j := by omega
        rw [harith] at hw2
        simpa using hw2
      have hx' : f x (some (toString (i + 1 + pre'.length))) "Item" = .error e := by
        have harith : i + (b :: pre').length = i + 1 + pre'.length := by
          simp only [List.length_cons]
          omega
        rw [harith] at hx
        exact hx
      simp [zipLoop, hw', ih f fs2 pre' (i + 1) x post e hlen' hpre' hx']

/-- `pyConvertListC` distributes over append. -/
theorem pyConvertListC_append (cs ds : List Conv) :
    pyConvertListC (cs ++ ds) = pyConvertListC cs ++ pyConvertListC ds := by
  induction cs with
  | nil => rfl
  | cons c cs ih => simp [pyConvertListC, ih]

/-- The bound converts of a nested list, position-wise. -/
theorem pyConvertListC_get :
    ∀ (cs : List Conv) (j : Nat) (hj : j < cs.length)
      (hj2 : j < (pyConvertListC cs).length),
      (pyConvertListC cs).get ⟨j, hj2⟩ = pyConvertF (cs.get ⟨j, hj⟩) := by
  intro cs
  induction cs with
  | nil => intro j hj; exact absurd hj (by simp)
  | cons c cs ih =>
    intro j hj hj2
    cases j with
    | zero => rfl
    | succ j' =>
      have hj' : j' < cs.length := by simpa using hj
      have hj2' : j' < (pyConvertListC cs).length := by
        rw [pyConvertListC_length]
        exact hj'
      simpa using ih j' hj' hj2'

/-- When every earlier pair's key and value convert and the pair at the split
fails (its key, or its value after a good key), the `DictionaryConverter`
pair loop fails with that error. -/
theorem pairsLoop_append_err (fk fv : ConvFun) :
    ∀ (ppre : List (Value × Value)) (k x : Value) (ppost : List (Value × Value)) (e : PyErr),
      (∀ p ∈ ppre, (∃ kw, fk p.1 Option.none "Key" = .ok kw) ∧
        ∃ vw, fv p.2 (match p.1 with | vNone => Option.none | _ => some (pyStr p.1)) "Item"
          = .ok vw) →
      (fk k Option.none "Key" = .error e ∨
        ((∃ kw, fk k Option.none "Key" = .ok kw) ∧
          fv x (match k with | vNone => Option.none | _ => some (pyStr k)) "Item" = .error e)) →
      pairsLoop fk fv (ppre ++ (k, x) :: ppost) = .error e := by
  intro ppre
  induction ppre with
  | nil =>
    intro k x ppost e _ hfail
    rcases hfail with hk | ⟨⟨kw, hkw⟩, hv⟩
    · simp [pairsLoop, hk]
    · simp [pairsLoop, hkw, hv]
  | cons p ppre ih =>
    intro k x ppost e hpre hfail
    obtain ⟨⟨kw, hkw⟩, vw, hvw⟩ := hpre p (by simp)
    have hpre' : ∀ q ∈ ppre, (∃ kw, fk q.1 Option.none "Key" = .ok kw) ∧
        ∃ vw, fv q.2 (match q.1 with | vNone => Option.none | _ => some (pyStr q.1)) "Item"
          = .ok vw := by
      intro q hq
      exact hpre q (List.mem_cons_of_mem _ hq)
    obtain ⟨k', x'⟩ := p
    simp only at hkw hvw
    simp [pairsLoop, hkw, hvw, ih k x ppost e hpre' hfail]

/-- Looking a key up in the bound field table is looking it up in the
declared fields and binding the hit. -/
theorem fieldLookup_bound (fields : List (String × Conv)) (ks : String) :
    fieldLookup (pyConvertFieldsC fields) ks
      = Option.map (fun c => (isTruthy c, pyConvertF c)) (fieldLookup fields ks) := by
  induction fields with
  | nil => rfl
  | cons p fields ih =>
    obtain ⟨fk, fc⟩ := p
    by_cases h : fk == ks
    · simp [pyConvertFieldsC, fieldLookup, h]
    · simp [pyConvertFieldsC, fieldLookup, h, ih]

/-- When every earlier entry of a `TypedDict` input converts (or is merely
collected) and a declared, truthy field's value fails, the entry loop fails
with that error. -/
theorem tdLoop_append_err (fields : List (String × Conv)) :
    ∀ (ppre : List (Value × Value)) (ks : String) (x : Value)
      (ppost : List (Value × Value)) (c : Conv) (e : PyErr),
      (∀ p ∈ ppre, tdEntryConverts fields p.1 p.2) →
      fieldLookup fields ks = some c →
      isTruthy c = true →
      pyConvert c x (some ks) "Item" = .error e →
      tdLoop (pyConvertFieldsC fields) (ppre ++ (vStr ks, x) :: ppost) = .error e := by
  intro ppre
  induction ppre with
  | nil =>
    intro ks x ppost c e _ hlook htru hx
    have hlook' : fieldLookup (pyConvertFieldsC fields) ks = some (true, pyConvertF c) := by
      rw [fieldLookup_bound, hlook]
      simp [htru]
    have hx' : pyConvertF c x (some ks) "Item" = .error e := hx
    simp [tdLoop, hlook', hx']
  | cons p ppre ih =>
    intro ks x ppost c e hpre hlook htru hx
    have hp := hpre p (by simp)
    have hpre' : ∀ q ∈ ppre, tdEntryConverts fields q.1 q.2 := by
      intro q hq
      exact hpre q (List.mem_cons_of_mem _ hq)
    have hih := ih ks x ppost c e hpre' hlook htru hx
    obtain ⟨k', x'⟩ := p
    cases k' with
    | vStr ks' =>
      have hb := fieldLookup_bound fields ks'
      cases hl : fieldLookup fields ks' with
      | none =>
        rw [hl] at hb
        simp only [Option.map] at hb
        simp [tdLoop, hb, hih]
      | some c' =>
        rw [hl] at hb
        simp only [Option.map] at hb
        have hp' : isTruthy c' = true → ∃ w, pyConvert c' x' (some ks') "Item" = .ok w := by
          have := hp
          simp only [tdEntryConverts, hl] at this
          exact this
        cases htr : isTruthy c' with
        | true =>
          obtain ⟨w, hw⟩ := hp' htr
          have hw' : pyConvertF c' x' (some ks') "Item" = .ok w := hw
          rw [htr] at hb
          simp [tdLoop, hb, hw', hih]
        | false =>
          rw [htr] at hb
          simp [tdLoop, hb, hih]
    | vNone => simp [tdLoop, hih]
    | vBool b => simp [tdLoop, hih]
    | vInt n => simp [tdLoop, hih]
    | vFloat q => simp [tdLoop, hih]
    | vList xs => simp [tdLoop, hih]
    | vTuple xs => simp [tdLoop, hih]
    | vSet xs => simp [tdLoop, hih]
    | vDict ps => simp [tdLoop, hih]
    | vEnum a b v => simp [tdLoop, hih]

/-- C7 counterexample: not every composite attaches the failing child's
position or name. A failing set item is reported with no position and no
name — only the failing value itself ("Item 'bad' cannot be converted to
integer.", no "got value" form) — and a failing dictionary key likewise
("Key 'bad' ..."), whereas a failing list item does carry its position
("Item '0' got value 'bad' ..."). -/
theorem claim_C7_counterexample :
    pyConvert (setC "set[integer]" (some intC)) (vSet [vStr "bad"]) Option.none "Argument"
      = .error (some ("Argument '\x7b'bad'\x7d' (set) cannot be converted to set[integer]: "
          ++ "Item 'bad' cannot be converted to integer."))
    ∧ convPairs intC intC [(vStr "bad", vInt 1)]
      = .error (some "Key 'bad' cannot be converted to integer.")
    ∧ pyConvert (listC "list[integer]" (some intC)) (vList [vStr "bad"]) Option.none "Argument"
      = .error (some ("Argument '['bad']' (list) cannot be converted to list[integer]: "
          ++ "Item '0' got value 'bad' that cannot be converted to integer.")) := by
  exact ⟨rfl, rfl, rfl⟩

/-- C7 (amended): no composite converter produces a partially-converted
aggregate on failure — for list, fixed-arity tuple, set, dictionary and
`TypedDict` inputs, the first child failure is re-raised and the aggregate
conversion fails atomically with that error (on success the list loop
converted every element).  The failing child's position is attached for list
items and fixed-arity tuple positions, and its name for `TypedDict` fields
and dictionary values under a non-`None` key; set items, dictionary keys and
dictionary values under a `None` key carry no position or name and are
identified only by the failing value itself. -/
theorem claim_C7 (c cf ck cv : Conv) (cs1 cs2 : List Conv)
    (fields : List (String × Conv)) (required : List String)
    (pre post : List Value) (ppre ppost : List (Value × Value))
    (x k : Value) (ks : String) (e : PyErr) :
    ((∀ j (hj : j < pre.length),
        ∃ w, pyConvert c (pre.get ⟨j, hj⟩) (some (toString j)) "Item" = .ok w) →
      pyConvert c x (some (toString pre.length)) "Item" = .error e →
      convItems c 0 (pre ++ x :: post) = .error e)
    ∧ (∀ ws, convItems c 0 (pre ++ x :: post) = .ok ws →
        ws.length = (pre ++ x :: post).length)
    ∧ ((∀ y ∈ pre, ∃ w, pyConvert c y Option.none "Item" = .ok w) →
      pyConvert c x Option.none "Item" = .error e →
      convItemsNN c (pre ++ x :: post) = .error e)
    ∧ (pre.length = cs1.length →
      (∀ j (hj : j < cs1.length) (hx : j < pre.length),
        ∃ w, pyConvert (cs1.get ⟨j, hj⟩) (pre.get ⟨j, hx⟩) (some (toString j)) "Item" = .ok w) →
      pyConvert cf x (some (toString pre.length)) "Item" = .error e →
      convZip (cs1 ++ cf :: cs2) 0 (pre ++ x :: post) = .error e)
    ∧ ((∀ p ∈ ppre, (∃ kw, pyConvert ck p.1 Option.none "Key" = .ok kw) ∧
        ∃ vw, pyConvert cv p.2
          (match p.1 with | vNone => Option.none | _ => some (pyStr p.1)) "Item" = .ok vw) →
      (pyConvert ck k Option.none "Key" = .error e ∨
        ((∃ kw, pyConvert ck k Option.none "Key" = .ok kw) ∧
          pyConvert cv x
            (match k with | vNone => Option.none | _ => some (pyStr k)) "Item" = .error e)) →
      convPairs ck cv (ppre ++ (k, x) :: ppost) = .error e)
    ∧ ((∀ p ∈ ppre, tdEntryConverts fields p.1 p.2) →
      fieldLookup fields ks = some cf →
      isTruthy cf = true →
      pyConvert cf x (some ks) "Item" = .error e →
      tdItems fields required (ppre ++ (vStr ks, x) :: ppost) = .error e) := by
  refine ⟨?_, ?_, ?_, ?_, ?_, ?_⟩
  · intro hpre hx
    have hpre' : ∀ j (hj : j < pre.length),
        ∃ w, pyConvert c (pre.get ⟨j, hj⟩) (some (toString (0 + j))) "Item" = .ok w := by
      intro j hj
      obtain ⟨w, hw⟩ := hpre j hj
      refine ⟨w, ?_⟩
      simpa [Nat.zero_add] using hw
    have hx' : pyConvert c x (some (toString (0 + pre.length))) "Item" = .error e := by
      simpa [Nat.zero_add] using hx
    exact itemsLoop_append_err (pyConvert c) pre 0 x post e hpre' hx'
  · intro ws hws
    exact itemsLoop_ok_length (pyConvert c) 0 (pre ++ x :: post) ws hws
  · intro hpre hx
    exact itemsLoopNN_append_err (pyConvert c) pre x post e hpre hx
  · intro hlen hpre hx
    have hlen' : pre.length = (pyConvertListC cs1).length := by
      rw [pyConvertListC_length]
      exact hlen
    have hpre' : ∀ j (hj : j < (pyConvertListC cs1).length) (hx2 : j < pre.length),
        ∃ w, ((pyConvertListC cs1).get ⟨j, hj⟩) (pre.get ⟨j, hx2⟩)
          (some (toString (0 + j))) "Item" = .ok w := by
      intro j hj hx2
      have hj' : j < cs1.length := by
        rw [pyConvertListC_length] at hj
        exact hj
      obtain ⟨w, hw⟩ := hpre j hj' hx2
      refine ⟨w, ?_⟩
      rw [pyConvertListC_get cs1 j hj' hj]
      simpa [Nat.zero_add] using hw
    have hx' : pyConvertF cf x (some (toString (0 + pre.length))) "Item" = .error e := by
      simpa [Nat.zero_add] using hx
    have := zipLoop_append_err (pyConvertListC cs1) (pyConvertF cf) (pyConvertListC cs2)
      pre 0 x post e hlen' hpre' hx'
    show zipLoop (pyConvertListC (cs1 ++ cf :: cs2)) 0 (pre ++ x :: post) = .error e
    rw [pyConvertListC_append]
    exact this
  · intro hpre hfail
    exact pairsLoop_append_err (pyConvert ck) (pyConvert cv) ppre k x ppost e hpre hfail
  · intro hpre hlook htru hx
    have := tdLoop_append_err fields ppre ks x ppost cf e hpre hlook htru hx
    show tdItemsF (pyConvertFieldsC fields) required (ppre ++ (vStr ks, x) :: ppost) = .error e
    unfold tdItemsF
    rw [this]

/-- C7 witness: the amended theorem applied to concrete failing aggregates
(a bad list item at position 0, a bad set item, a bad fixed-tuple position,
a bad dictionary key, a bad `TypedDict` field value) and to a concrete
successful list conversion. -/
theorem claim_C7_witness :
    convItems intC 0 [vStr "bad", vInt 9]
      = .error (some "Item '0' got value 'bad' that cannot be converted to integer.")
    ∧ ([vInt 1, vInt 2] : List Value).length = ([vInt 1] ++ vInt 2 :: []).length
    ∧ convItemsNN intC [vStr "bad", vInt 9]
      = .error (some "Item 'bad' cannot be converted to integer.")
    ∧ convZip [intC, strC] 0 [vStr "bad"]
      = .error (some "Item '0' got value 'bad' that cannot be converted to integer.")
    ∧ convPairs intC intC [(vStr "bad", vInt 1)]
      = .error (some "Key 'bad' cannot be converted to integer.")
    ∧ tdItems [("a", intC)] ["a"] [(vStr "a", vStr "bad")]
      = .error (some "Item 'a' got value 'bad' that cannot be converted to integer.") := by
  refine ⟨?_, ?_, ?_, ?_, ?_, ?_⟩
  · exact (claim_C7 intC intC intC intC [] [] [] [] [] [vInt 9] [] [] (vStr "bad")
      (vStr "bad") "a" (some "Item '0' got value 'bad' that cannot be converted to integer.")).1
      (fun j hj => absurd hj (by simp)) rfl
  · exact (claim_C7 intC intC intC intC [] [] [] [] [vInt 1] [] [] [] (vInt 2)
      (vInt 0) "a" Option.none).2.1 [vInt 1, vInt 2] rfl
  · exact (claim_C7 intC intC intC intC [] [] [] [] [] [vInt 9] [] [] (vStr "bad")
      (vStr "bad") "a" (some "Item 'bad' cannot be converted to integer.")).2.2.1
      (fun y hy => absurd hy (by simp)) rfl
  · exact (claim_C7 intC intC intC intC [] [strC] [] [] [] [] [] [] (vStr "bad")
      (vStr "bad") "a"
      (some "Item '0' got value 'bad' that cannot be converted to integer.")).2.2.2.1
      rfl (fun j hj => absurd hj (by simp)) rfl
  · exact (claim_C7 intC intC intC intC [] [] [] [] [] [] [] [] (vInt 1)
      (vStr "bad") "a" (some "Key 'bad' cannot be converted to integer.")).2.2.2.2.1
      (fun p hp => absurd hp (by simp)) (Or.inl rfl)
  · exact (claim_C7 intC intC intC intC [] [] [("a", intC)] ["a"] [] [] [] []
      (vStr "bad") (vInt 0) "a"
      (some "Item 'a' got value 'bad' that cannot be converted to integer.")).2.2.2.2.2
      (fun p hp => absurd hp (by simp)) rfl rfl rfl
